import Mathlib

/-! FAT12 reader (`src/tools/fat/fat.c`): embedding and verified properties.

Bytes, 8/16/32-bit fields, logical block addresses and cluster numbers are natural
numbers; where the C program computes in `uint32_t` or stores into a `uint16_t` the
reduction modulo `2^32` / `2^16` is written out.  The disk image is the list of its bytes.
Memory obtained from `malloc` is represented by the bytes stored into it, in address order.

Conventions about the platform (the program is a hosted Linux tool):
* `long` is 64 bits wide, so every `uint32_t` byte offset handed to `fseek` is
  non-negative and `fseek` on a regular file succeeds;
* 16-bit loads are little-endian and need no alignment;
* `malloc` does not fail.

Behaviour the C standard leaves undefined is reported as such (`Fault`), never given
an invented result.  The only unbounded loop, the cluster walk of `readFile`, takes
a bound on the number of iterations and reports `running` when the bound is used up.
-/

namespace Fat12

/-! ## Data model -/

/-- Members of the packed struct `BootSector` (fat.c 18-45); arrays are byte lists. -/
structure BootSector where
  BootJumpInstruction : List Nat
  OemIdentifier : List Nat
  BytesPerSector : Nat
  SectorsPerCluster : Nat
  ReservedSectors : Nat
  FatCount : Nat
  DirEntryCount : Nat
  TotalSectors : Nat
  MediaDescriptorType : Nat
  SectorsPerFat : Nat
  SectorsPerTrack : Nat
  Heads : Nat
  HiddenSectors : Nat
  LargeSectorCount : Nat
  DriveNumber : Nat
  _Reserved : Nat
  Signature : Nat
  VolumeId : Nat
  VolumeLabel : List Nat
  SystemId : List Nat
deriving DecidableEq, Repr

/-- Members of the packed struct `DirectoryEntry` (fat.c 49-63). -/
structure DirectoryEntry where
  Name : List Nat
  Attributes : Nat
  _Reserved : Nat
  CreatedTimeTenths : Nat
  CreatedTime : Nat
  CreatedDate : Nat
  AccessedDate : Nat
  FirstClusterHigh : Nat
  ModifiedTime : Nat
  ModifiedDate : Nat
  FirstClusterLow : Nat
  Size : Nat
deriving DecidableEq, Repr

/-- The program's global variables (fat.c 66-75).  `global_Fat` and
`global_RootDirectory` hold the bytes stored in the allocated blocks (`[]` for `NULL`). -/
structure Globals where
  global_BootSector : BootSector
  global_Fat : List Nat
  global_RootDirectory : List Nat
  global_RootDirectoryEnd : Nat
deriving DecidableEq, Repr

/-- Behaviour that C leaves undefined or unspecified, by the place where it arises. -/
inductive Fault where
  /-- `readFat`: the `int` product `SectorsPerFat * BytesPerSector` exceeds `INT_MAX`. -/
  | signedOverflow
  /-- `readRootDirectory`: division by `BytesPerSector = 0`. -/
  | divisionByZero
  /-- `findFile`: `memcmp` reads 11 bytes of a shorter `name`. -/
  | nameOutOfBounds
  /-- `findFile`: entry `i` does not lie inside `global_RootDirectory`. -/
  | directoryOutOfBounds
  /-- `readFile`: the 16-bit FAT load is not inside `global_Fat`. -/
  | fatOutOfBounds
  /-- `main`: `readFile` stored more bytes than the buffer `main` allocated. -/
  | bufferOverflow
  /-- `main`: the print loop reads buffer bytes that were never stored. -/
  | uninitialisedRead
deriving DecidableEq, Repr

/-- Outcome of running a function of the program. -/
inductive Run (α : Type) where
  /-- The function returns the value. -/
  | returns : α → Run α
  /-- The run meets undefined behaviour. -/
  | undefined : Fault → Run α
  /-- The iteration bound was used up with the loop still running. -/
  | running : Run α
deriving DecidableEq, Repr

/-! ## Byte access -/

/-- Byte `i` of a fully initialised memory block (0 beyond it; used only in bounds). -/
def byteAt (m : List Nat) (i : Nat) : Nat := m.getD i 0

/-- Little-endian `uint16_t` at byte offset `i`. -/
def u16At (m : List Nat) (i : Nat) : Nat := byteAt m i + 256 * byteAt m (i + 1)

/-- Little-endian `uint32_t` at byte offset `i`. -/
def u32At (m : List Nat) (i : Nat) : Nat :=
  byteAt m i + 256 * byteAt m (i + 1) + 65536 * byteAt m (i + 2) + 16777216 * byteAt m (i + 3)

/-- The `n` bytes of an array member at byte offset `i`. -/
def bytesAt (m : List Nat) (i n : Nat) : List Nat := (m.drop i).take n

/-! ## The sector store: `fread` after `fseek` on the image -/

/-- The call `fread(buf, size, count, disk)` with the stream positioned at byte `pos`:
the number of complete items read and the bytes stored into `buf`.  A zero `size` or
`count` reads nothing and returns 0. -/
def fread (disk : List Nat) (pos size count : Nat) : Nat × List Nat :=
  let data := (disk.drop pos).take (size * count)
  (if size = 0 ∨ count = 0 then 0 else data.length / size, data)

/-- Size of the packed `BootSector` struct in bytes. -/
def sizeofBootSector : Nat := 62

/-- Size of the packed `DirectoryEntry` struct in bytes. -/
def sizeofDirectoryEntry : Nat := 32

/-- The struct laid out over the 62 bytes of `global_BootSector`. -/
def decodeBootSector (m : List Nat) : BootSector where
  BootJumpInstruction := bytesAt m 0 3
  OemIdentifier := bytesAt m 3 8
  BytesPerSector := u16At m 11
  SectorsPerCluster := byteAt m 13
  ReservedSectors := u16At m 14
  FatCount := byteAt m 16
  DirEntryCount := u16At m 17
  TotalSectors := u16At m 19
  MediaDescriptorType := byteAt m 21
  SectorsPerFat := u16At m 22
  SectorsPerTrack := u16At m 24
  Heads := u16At m 26
  HiddenSectors := u32At m 28
  LargeSectorCount := u32At m 32
  DriveNumber := byteAt m 36
  _Reserved := byteAt m 37
  Signature := byteAt m 38
  VolumeId := u32At m 39
  VolumeLabel := bytesAt m 43 11
  SystemId := bytesAt m 54 8

/-- The struct laid out over the 32 bytes starting at `32 * i` of the directory block:
`global_RootDirectory[i]`. -/
def directoryEntryAt (dir : List Nat) (i : Nat) : DirectoryEntry where
  Name := bytesAt dir (sizeofDirectoryEntry * i) 11
  Attributes := byteAt dir (sizeofDirectoryEntry * i + 11)
  _Reserved := byteAt dir (sizeofDirectoryEntry * i + 12)
  CreatedTimeTenths := byteAt dir (sizeofDirectoryEntry * i + 13)
  CreatedTime := u16At dir (sizeofDirectoryEntry * i + 14)
  CreatedDate := u16At dir (sizeofDirectoryEntry * i + 16)
  AccessedDate := u16At dir (sizeofDirectoryEntry * i + 18)
  FirstClusterHigh := u16At dir (sizeofDirectoryEntry * i + 20)
  ModifiedTime := u16At dir (sizeofDirectoryEntry * i + 22)
  ModifiedDate := u16At dir (sizeofDirectoryEntry * i + 24)
  FirstClusterLow := u16At dir (sizeofDirectoryEntry * i + 26)
  Size := u32At dir (sizeofDirectoryEntry * i + 28)

/-- The initial values of the globals: static storage is zero-initialised. -/
def initialGlobals : Globals where
  global_BootSector := decodeBootSector (List.replicate sizeofBootSector 0)
  global_Fat := []
  global_RootDirectory := []
  global_RootDirectoryEnd := 0

/-- `readBootSector` (fat.c 84-87): one item of 62 bytes is read from the start of
the image into `global_BootSector`; bytes a short read does not reach keep their
previous value, zero. -/
def readBootSector (g : Globals) (disk : List Nat) : Bool × Globals :=
  let r := fread disk 0 sizeofBootSector 1
  let m := r.2 ++ List.replicate (sizeofBootSector - r.2.length) 0
  (decide (r.1 > 0), { g with global_BootSector := decodeBootSector m })

/-- `readSectors` (fat.c 98-110): seek to byte `lba * BytesPerSector` (a `uint32_t`
product), then read `count` items of `BytesPerSector` bytes.  Returns the status and
the bytes stored into `bufferOut`. -/
def readSectors (g : Globals) (disk : List Nat) (lba count : Nat) : Bool × List Nat :=
  let pos := (lba * g.global_BootSector.BytesPerSector) % 4294967296
  let r := fread disk pos g.global_BootSector.BytesPerSector count
  (r.1 == count, r.2)

/-- `readFat` (fat.c 118-122). -/
def readFat (g : Globals) (disk : List Nat) : Run (Bool × Globals) :=
  if 2147483647 < g.global_BootSector.SectorsPerFat * g.global_BootSector.BytesPerSector then
    .undefined .signedOverflow
  else
    let r := readSectors g disk g.global_BootSector.ReservedSectors
      g.global_BootSector.SectorsPerFat
    .returns (r.1, { g with global_Fat := r.2 })

/-- `readRootDirectory` (fat.c 130-147). -/
def readRootDirectory (g : Globals) (disk : List Nat) : Run (Bool × Globals) :=
  let bs := g.global_BootSector
  let lba := (bs.ReservedSectors + bs.FatCount * bs.SectorsPerFat) % 4294967296
  let size := (bs.DirEntryCount * sizeofDirectoryEntry) % 4294967296
  if bs.BytesPerSector = 0 then .undefined .divisionByZero
  else
    let sectors := size / bs.BytesPerSector
    let sectors := if size % bs.BytesPerSector > 0 then (sectors + 1) % 4294967296 else sectors
    let r := readSectors g disk lba sectors
    .returns (r.1, { g with
      global_RootDirectory := r.2
      global_RootDirectoryEnd := (lba + sectors) % 4294967296 })

/-- The loop of `findFile` from index `i` with `n` entries still to visit. -/
def findFileFrom (g : Globals) (name : List Nat) : Nat → Nat → Run (Option Nat)
  | _, 0 => .returns none
  | i, n + 1 =>
    if name.length < 11 then .undefined .nameOutOfBounds
    else if g.global_RootDirectory.length < sizeofDirectoryEntry * (i + 1) then
      .undefined .directoryOutOfBounds
    else if name.take 11 = (directoryEntryAt g.global_RootDirectory i).Name then
      .returns (some i)
    else findFileFrom g name (i + 1) n

/-- `findFile` (fat.c 155-163): the index `i` of the entry `&global_RootDirectory[i]`
returned, or `none` for `NULL`.  `name` is the memory `name` points to. -/
def findFile (g : Globals) (name : List Nat) : Run (Option Nat) :=
  findFileFrom g name 0 g.global_BootSector.DirEntryCount

/-! ## `readFile`: the cluster walk -/

/-- What the walk does to the outside, in order. -/
inductive Event where
  /-- A call `readSectors(disk, lba, count, _)` and its status. -/
  | sectorRead (lba count : Nat) (ok : Bool)
  /-- The 16-bit load from `global_Fat` for the entry of `cluster`. -/
  | fatLoad (cluster : Nat)
deriving DecidableEq, Repr

/-- The local variables of `readFile`, with the bytes stored through `outputBuffer`
since the call (in address order) and the events so far.  `readFile` does not know the
size of the block `outputBuffer` points into; whether the stored bytes fit is decided
where the block is allocated (`mainReadAndPrint`). -/
structure WalkState where
  ok : Bool
  currentCluster : Nat
  outputBuffer : List Nat
  trace : List Event
deriving DecidableEq, Repr

/-- Outcome of `readFile`, with the state reached in each case. -/
inductive Walk where
  /-- `readFile` returned `s.ok`. -/
  | returns (s : WalkState)
  /-- The FAT load last in `s.trace` was outside `global_Fat`. -/
  | undefined (s : WalkState)
  /-- The iteration bound was used up; the loop would go on from `s`. -/
  | running (s : WalkState)
deriving DecidableEq, Repr

/-- The `lba` of fat.c 180: the `int` product converted to `uint32_t` and added to
`global_RootDirectoryEnd` modulo `2^32`. -/
def clusterLba (g : Globals) (currentCluster : Nat) : Nat :=
  (((g.global_RootDirectoryEnd : Int) +
    ((currentCluster : Int) - 2) * (g.global_BootSector.SectorsPerCluster : Int))
      % 4294967296).toNat

/-- The `fatIndex` of fat.c 187. -/
def fatIndex (currentCluster : Nat) : Nat := currentCluster * 3 / 2

/-- The load `*(uint16_t*)(global_Fat + fatIndex)`; `none` outside the block. -/
def fatWord (fat : List Nat) (i : Nat) : Option Nat :=
  match fat[i]?, fat[i + 1]? with
  | some lo, some hi => some (lo + 256 * hi)
  | _, _ => none

/-- The new `currentCluster` of fat.c 187-195, stored into a `uint16_t`. -/
def nextCluster (fat : List Nat) (currentCluster : Nat) : Option Nat :=
  match fatWord fat (fatIndex currentCluster) with
  | none => none
  | some w =>
    if currentCluster % 2 = 0 then some ((w &&& 0x0FFF) % 65536)
    else some ((w >>> 4) % 65536)

/-- One execution of the loop body (fat.c 179-195): `.error` when the FAT load is
outside `global_Fat`. -/
def readFileBody (g : Globals) (disk : List Nat) (s : WalkState) :
    Except WalkState WalkState :=
  let spc := g.global_BootSector.SectorsPerCluster
  let lba := clusterLba g s.currentCluster
  let s1 : WalkState :=
    if s.ok then
      let r := readSectors g disk lba spc
      { s with ok := r.1, outputBuffer := s.outputBuffer ++ r.2,
               trace := s.trace ++ [Event.sectorRead lba spc r.1] }
    else s
  let s2 : WalkState := { s1 with trace := s1.trace ++ [Event.fatLoad s.currentCluster] }
  match nextCluster g.global_Fat s.currentCluster with
  | none => .error s2
  | some c => .ok { s2 with currentCluster := c }

/-- The do/while loop (fat.c 178-197), at most `fuel` iterations. -/
def readFileLoop (g : Globals) (disk : List Nat) : Nat → WalkState → Walk
  | 0, s => .running s
  | fuel + 1, s =>
    match readFileBody g disk s with
    | .error s1 => .undefined s1
    | .ok s1 =>
      if s1.ok && decide (s1.currentCluster < 0x0ff8) then readFileLoop g disk fuel s1
      else .returns s1

/-- `readFile` (fat.c 173-201). -/
def readFile (g : Globals) (fileEntry : DirectoryEntry) (disk : List Nat) (fuel : Nat) : Walk :=
  readFileLoop g disk fuel
    { ok := true, currentCluster := fileEntry.FirstClusterLow, outputBuffer := [], trace := [] }

/-! ## `main` -/

/-- What the process leaves behind: the value `main` returns and the two streams. -/
structure Exit where
  status : Int
  stdout : List Nat
  stderr : List Nat
deriving DecidableEq, Repr

/-- The bytes of an ASCII string literal. -/
def text (s : String) : List Nat := s.toList.map Char.toNat

/-- `isprint` in the C locale. -/
def isprint (c : Nat) : Bool := decide (0x20 ≤ c) && decide (c ≤ 0x7e)

/-- One lowercase hexadecimal digit, as printed by `%x`. -/
def hexDigit (d : Nat) : Nat := if d < 10 then 48 + d else 87 + d

/-- Output of one iteration of the print loop (fat.c 264-265). -/
def printByte (b : Nat) : List Nat :=
  if isprint b then [b] else [60, hexDigit (b / 16), hexDigit (b % 16), 62]

/-- The bytes `buffer[0 .. Size)` the print loop of fat.c 263 visits: the recovered
contents trimmed to the declared size. -/
def trimmed (fileEntry : DirectoryEntry) (buffer : List Nat) : List Nat :=
  buffer.take fileEntry.Size

/-- Output of the print loop and the final newline (fat.c 263-268). -/
def printContents (fileEntry : DirectoryEntry) (buffer : List Nat) : List Nat :=
  (trimmed fileEntry buffer).flatMap printByte ++ [10]

/-- The argument of `malloc` at fat.c 253, a `uint32_t` sum. -/
def bufferLength (g : Globals) (fileEntry : DirectoryEntry) : Nat :=
  (fileEntry.Size + g.global_BootSector.BytesPerSector) % 4294967296

/-- `main` from fat.c 251 on: the buffer, `readFile` and the printing.  The bytes the
walk has stored are held against the `bufferLength` bytes allocated whatever the walk
does next: a store past the end of the block is undefined when it happens, also in a
walk that has not returned, and it precedes the FAT load of the same iteration. -/
def mainReadAndPrint (g : Globals) (disk : List Nat) (argv2 : List Nat) (i : Nat)
    (fuel : Nat) : Run Exit :=
  let fileEntry := directoryEntryAt g.global_RootDirectory i
  match readFile g fileEntry disk fuel with
  | .running s =>
    if bufferLength g fileEntry < s.outputBuffer.length then .undefined .bufferOverflow
    else .running
  | .undefined s =>
    if bufferLength g fileEntry < s.outputBuffer.length then .undefined .bufferOverflow
    else .undefined .fatOutOfBounds
  | .returns s =>
    if bufferLength g fileEntry < s.outputBuffer.length then .undefined .bufferOverflow
    else if !s.ok then
      .returns { status := -5, stdout := [],
                 stderr := text "Could not read File " ++ argv2 ++ text "!\n" }
    else if s.outputBuffer.length < fileEntry.Size then .undefined .uninitialisedRead
    else .returns { status := 0, stdout := printContents fileEntry s.outputBuffer, stderr := [] }

/-- `main` from fat.c 225 on, with the image opened. -/
def mainOnDisk (disk : List Nat) (argv2 : List Nat) (fuel : Nat) : Run Exit :=
  let r := readBootSector initialGlobals disk
  if !r.1 then
    .returns { status := -2, stdout := [], stderr := text "Could not read the boot sector!\n" }
  else
    match readFat r.2 disk with
    | .running => .running
    | .undefined f => .undefined f
    | .returns (false, _) =>
      .returns { status := -3, stdout := [], stderr := text "Could not read FAT!\n" }
    | .returns (true, g) =>
      match readRootDirectory g disk with
      | .running => .running
      | .undefined f => .undefined f
      | .returns (false, _) =>
        .returns { status := -4, stdout := [],
                   stderr := text "Could not read the Root Directory!\n" }
      | .returns (true, g) =>
        match findFile g (argv2 ++ [0]) with
        | .running => .running
        | .undefined f => .undefined f
        | .returns none =>
          .returns { status := -5, stdout := [],
                     stderr := text "Could not find File " ++ argv2 ++ text "!\n" }
        | .returns (some i) => mainReadAndPrint g disk argv2 i fuel

/-- `main` (fat.c 211-274).  `fopen` gives the bytes of the file at a path opened
for reading, `argv0` is `argv[0]` and `args` are `argv[1]`, `argv[2]`, ...; the result
is the returned `int` and what was written to the streams. -/
def main (fopen : List Nat → Option (List Nat)) (argv0 : List Nat) (args : List (List Nat))
    (fuel : Nat) : Run Exit :=
  match args with
  | argv1 :: argv2 :: _ =>
    match fopen argv1 with
    | none =>
      .returns { status := -1, stdout := [],
                 stderr := text "Cannot open disk image " ++ argv1 ++ text "\n" }
    | some disk => mainOnDisk disk argv2 fuel
  | _ =>
    .returns { status := -1,
               stdout := text "Improper Command Usage\nCorrect Syntax: " ++ argv0 ++
                 text " <disk image> <file name>\n",
               stderr := [] }

/-- The globals with which `main` reaches `findFile`: the three loads of fat.c 225-241
in order, `none` when one of them fails or is undefined. -/
def loadedGlobals (disk : List Nat) : Option Globals :=
  let r := readBootSector initialGlobals disk
  if !r.1 then none
  else
    match readFat r.2 disk with
    | .returns (true, g) =>
      match readRootDirectory g disk with
      | .returns (true, g) => some g
      | _ => none
    | _ => none

/-! ## A synthetic one-file image -/

/-- Boot sector: 512 bytes per sector, 1 sector per cluster, 1 reserved sector, 1 FAT
of 1 sector, 16 root entries, 4 sectors in all. -/
def helloBootSector : List Nat :=
  [0xEB, 0x3C, 0x90] ++ text "MSWIN4.1" ++
    [0x00, 0x02, 1, 1, 0, 1, 16, 0, 4, 0, 0xF0, 1, 0] ++ List.replicate 488 0

/-- FAT sector: entries 0 and 1 reserved, entry 2 = 0xFFF (end of chain). -/
def helloFat : List Nat := [0xF0, 0xFF, 0xFF, 0xFF, 0x0F] ++ List.replicate 507 0

/-- Root directory sector: entry 0 is HELLO.TXT, first cluster 2, 5 bytes. -/
def helloRootDirectory : List Nat :=
  text "HELLO   TXT" ++ [0x20] ++ List.replicate 14 0 ++ [2, 0] ++ [5, 0, 0, 0] ++
    List.replicate 480 0

/-- The sector of cluster 2: the file body and padding. -/
def helloData : List Nat := text "HELLO" ++ List.replicate 507 0

/-- The image: boot sector, FAT, root directory, cluster 2. -/
def helloImage : List Nat := helloBootSector ++ helloFat ++ helloRootDirectory ++ helloData

/-! ## Vocabulary for statements about the cluster walk -/

/-- The state a `Walk` outcome carries. -/
def Walk.state : Walk → WalkState
  | .returns s => s
  | .undefined s => s
  | .running s => s

/-- The clusters `c :: rest` are a chain of the FAT: each next entry is the decoded
value of its predecessor and lies below `0x0FF8`, and the value decoded for the last
one is an end-of-chain value (`≥ 0x0FF8`). -/
def isChain (fat : List Nat) : List Nat → Bool
  | [] => false
  | [c] =>
    match nextCluster fat c with
    | some v => decide (0x0FF8 ≤ v)
    | none => false
  | c :: c1 :: rest =>
    (nextCluster fat c == some c1) && decide (c1 < 0x0FF8) && isChain fat (c1 :: rest)

/-- The bytes of the image that make up cluster `c`: `SectorsPerCluster` sectors from
the byte offset of sector `clusterLba g c`. -/
def clusterBytes (g : Globals) (disk : List Nat) (c : Nat) : List Nat :=
  bytesAt disk ((clusterLba g c * g.global_BootSector.BytesPerSector) % 4294967296)
    (g.global_BootSector.BytesPerSector * g.global_BootSector.SectorsPerCluster)

/-- The events of one loop iteration on cluster `c` whose read succeeds. -/
def iterationEvents (g : Globals) (c : Nat) : List Event :=
  [Event.sectorRead (clusterLba g c) g.global_BootSector.SectorsPerCluster true,
   Event.fatLoad c]

/-- The sector reads among the events, as `(lba, count, status)`, in order. -/
def sectorReads : List Event → List (Nat × Nat × Bool)
  | [] => []
  | Event.sectorRead lba count ok :: t => (lba, count, ok) :: sectorReads t
  | Event.fatLoad _ :: t => sectorReads t

/-- The clusters whose FAT entry is loaded among the events, in order. -/
def fatLoads : List Event → List Nat
  | [] => []
  | Event.sectorRead _ _ _ :: t => fatLoads t
  | Event.fatLoad c :: t => c :: fatLoads t

/-- The globals after the synthetic image has been loaded. -/
def helloGlobals : Globals where
  global_BootSector := decodeBootSector (helloBootSector.take 62)
  global_Fat := helloFat
  global_RootDirectory := helloRootDirectory
  global_RootDirectoryEnd := 3

/-! ## Definitions that follow the specification's words -/

/-- The specification's `next(table, cluster)`: byte offset `floor(cluster * 3 / 2)`, the
16-bit little-endian word there, its low 12 bits for an even cluster and the word
shifted right by 4 bits for an odd one; defined when both bytes are in the table. -/
def specNext (table : List Nat) (cluster : Nat) : Option Nat :=
  let offset := cluster * 3 / 2
  if offset + 1 < table.length then
    let word := table.getD offset 0 + 256 * table.getD (offset + 1) 0
    some (if cluster % 2 = 0 then word % 4096 else word / 16)
  else none

/-- The reference FAT12 packer: entries `2k` and `2k+1` share bytes `3k .. 3k+2`;
byte `3k` is the low 8 bits of entry `2k`, byte `3k+1` has the high 4 bits of entry
`2k` in its low nibble and the low 4 bits of entry `2k+1` in its high nibble, byte
`3k+2` is the high 8 bits of entry `2k+1`.  A last entry without partner gets its
two bytes, the free nibble zero. -/
def referencePack : List Nat → List Nat
  | [] => []
  | [v] => [v % 256, v / 256]
  | v0 :: v1 :: rest =>
    (v0 % 256) :: (v0 / 256 + 16 * (v1 % 16)) :: (v1 / 16) :: referencePack rest

/-- A small volume for examples: 4-byte sectors, one sector per cluster, data region
from sector 2; FAT entries 2 -> 3 -> 4 -> end of chain, 5 -> 5. -/
def tinyGlobals : Globals where
  global_BootSector :=
    { decodeBootSector (List.replicate 62 0) with BytesPerSector := 4, SectorsPerCluster := 1 }
  global_Fat := referencePack [0xFF8, 0xFFF, 3, 4, 0xFFF, 5]
  global_RootDirectory := []
  global_RootDirectoryEnd := 2

/-- Image of the small volume: 5 sectors, byte `i` holds `i`. -/
def tinyDisk : List Nat := List.range 20

/-- A directory entry with the given first cluster and size, other members zero. -/
def entryWith (firstClusterLow size : Nat) : DirectoryEntry :=
  { directoryEntryAt [] 0 with
    Name := text "FILE    BIN", FirstClusterLow := firstClusterLow, Size := size }

/-- FAT sector in which the entry of cluster 2 is 2. -/
def loopFat : List Nat := [0xF0, 0xFF, 0xFF, 0x02, 0x00] ++ List.replicate 507 0

/-- The synthetic image with the self-loop FAT. -/
def loopImage : List Nat := helloBootSector ++ loopFat ++ helloRootDirectory ++ helloData

/-- The globals after `loopImage` has been loaded. -/
def loopGlobals : Globals := { helloGlobals with global_Fat := loopFat }

/-- FAT sector in which the entry of cluster 2 is `0x400`, a cluster whose entry
would lie beyond the 512 bytes of the table. -/
def strayFat : List Nat := [0xF0, 0xFF, 0xFF, 0x00, 0x04] ++ List.replicate 507 0

/-- The synthetic image with the stray FAT entry. -/
def strayImage : List Nat := helloBootSector ++ strayFat ++ helloRootDirectory ++ helloData

/-- The globals after `strayImage` has been loaded. -/
def strayGlobals : Globals := { helloGlobals with global_Fat := strayFat }

/-- Root directory sector whose entry 0 is HELLO.TXT with first cluster 2 and a
declared size of 1000 bytes. -/
def longRootDirectory : List Nat :=
  text "HELLO   TXT" ++ [0x20] ++ List.replicate 14 0 ++ [2, 0] ++ [0xE8, 0x03, 0, 0] ++
    List.replicate 480 0

/-- The synthetic image with the declared size 1000: the chain is still the single
cluster 2. -/
def longImage : List Nat := helloBootSector ++ helloFat ++ longRootDirectory ++ helloData

/-- The globals after `longImage` has been loaded. -/
def longGlobals : Globals := { helloGlobals with global_RootDirectory := longRootDirectory }

/-- Boot sector of a volume with two sectors per cluster: 512 bytes per sector, 1
reserved sector, 1 FAT of 1 sector, 16 root entries, 5 sectors in all. -/
def pairBootSector : List Nat :=
  [0xEB, 0x3C, 0x90] ++ text "MSWIN4.1" ++
    [0x00, 0x02, 2, 1, 0, 1, 16, 0, 5, 0, 0xF0, 1, 0] ++ List.replicate 488 0

/-- Image of the volume with two sectors per cluster: HELLO.TXT (5 bytes) in cluster
2, which is sectors 3 and 4. -/
def pairImage : List Nat :=
  pairBootSector ++ helloFat ++ helloRootDirectory ++ helloData ++ List.replicate 512 0

/-- The globals after `pairImage` has been loaded. -/
def pairGlobals : Globals where
  global_BootSector := decodeBootSector (pairBootSector.take 62)
  global_Fat := helloFat
  global_RootDirectory := helloRootDirectory
  global_RootDirectoryEnd := 3

/-- FAT sector in which the entry of cluster 2 is the bad-cluster mark `0xFF7`. -/
def badFat : List Nat := [0xF0, 0xFF, 0xFF, 0xF7, 0x0F] ++ List.replicate 507 0

/-- The synthetic image with the reserved value `0xFF7` as FAT entry of cluster 2. -/
def badImage : List Nat := helloBootSector ++ badFat ++ helloRootDirectory ++ helloData

/-- The globals after `badImage` has been loaded. -/
def badGlobals : Globals := { helloGlobals with global_Fat := badFat }

/-- The 8- and 16-bit members of the boot sector that the layout computations use
hold values of their C types. -/
def fieldsInRange (bs : BootSector) : Prop :=
  bs.BytesPerSector < 65536 ∧ bs.SectorsPerCluster < 256 ∧ bs.ReservedSectors < 65536 ∧
  bs.FatCount < 256 ∧ bs.DirEntryCount < 65536 ∧ bs.SectorsPerFat < 65536

instance (bs : BootSector) : Decidable (fieldsInRange bs) := by
  unfold fieldsInRange
  infer_instance

/-- The specification's `ceil(a / b)` for natural numbers. -/
def ceilDiv (a b : Nat) : Nat := (a + b - 1) / b

/-- The specification's start of the root directory region. -/
def rootDirectoryLba (bs : BootSector) : Nat :=
  bs.ReservedSectors + bs.FatCount * bs.SectorsPerFat

/-- The specification's sector extent of the root directory region. -/
def rootDirectorySectors (bs : BootSector) : Nat :=
  ceilDiv (bs.DirEntryCount * 32) bs.BytesPerSector

/-- An image of 62 bytes whose boot sector has `BytesPerSector = 65535` and
`SectorsPerFat = 65535`, every other member zero. -/
def wideImage : List Nat :=
  List.replicate 11 0 ++ [0xFF, 0xFF] ++ List.replicate 9 0 ++ [0xFF, 0xFF] ++
    List.replicate 38 0

/-- Globals whose boot sector has 512-byte sectors, 255 FATs of 65535 sectors and 16
root entries, every other member zero. -/
def farGlobals : Globals :=
  { initialGlobals with
    global_BootSector :=
      { decodeBootSector (List.replicate 62 0) with
        BytesPerSector := 512, FatCount := 255, SectorsPerFat := 65535, DirEntryCount := 16 } }

/-- An image of 62 zero bytes: `BytesPerSector = 0` and `SectorsPerFat = 0`. -/
def zeroImage : List Nat := List.replicate 62 0

/-- The sixteen lowercase hexadecimal digit characters. -/
def hexChars : List Nat := text "0123456789abcdef"

/-- The specification's rendering of one byte: itself when printable (`0x20..0x7E`),
otherwise `<`, two lowercase hexadecimal digits, `>`. -/
def specRenderByte (b : Nat) : List Nat :=
  if 0x20 ≤ b ∧ b ≤ 0x7E then [b]
  else text "<" ++ [hexChars.getD (b / 16) 0, hexChars.getD (b % 16) 0] ++ text ">"

/-- The specification's rendering of the recovered bytes, in order. -/
def specRender (bytes : List Nat) : List Nat := bytes.flatMap specRenderByte

/-- The members of the packed struct `BootSector` in declaration order (fat.c 20-41),
each with its size in bytes. -/
def bootSectorMembers : List (String × Nat) :=
  [("BootJumpInstruction", 3), ("OemIdentifier", 8), ("BytesPerSector", 2),
   ("SectorsPerCluster", 1), ("ReservedSectors", 2), ("FatCount", 1), ("DirEntryCount", 2),
   ("TotalSectors", 2), ("MediaDescriptorType", 1), ("SectorsPerFat", 2),
   ("SectorsPerTrack", 2), ("Heads", 2), ("HiddenSectors", 4), ("LargeSectorCount", 4),
   ("DriveNumber", 1), ("_Reserved", 1), ("Signature", 1), ("VolumeId", 4),
   ("VolumeLabel", 11), ("SystemId", 8)]

/-- The members of the packed struct `DirectoryEntry` in declaration order (fat.c
51-62), each with its size in bytes. -/
def directoryEntryMembers : List (String × Nat) :=
  [("Name", 11), ("Attributes", 1), ("_Reserved", 1), ("CreatedTimeTenths", 1),
   ("CreatedTime", 2), ("CreatedDate", 2), ("AccessedDate", 2), ("FirstClusterHigh", 2),
   ("ModifiedTime", 2), ("ModifiedDate", 2), ("FirstClusterLow", 2), ("Size", 4)]

/-- Byte offset of a member of a packed struct: the sizes of the members declared
before it, added up. -/
def memberOffset : List (String × Nat) → String → Option Nat
  | [], _ => none
  | (n, w) :: rest, name =>
    if n = name then some 0 else (memberOffset rest name).map (fun o => w + o)

/-- Size of a packed struct: the sizes of its members, added up. -/
def structSize (members : List (String × Nat)) : Nat := (members.map (fun m => m.2)).sum

end Fat12

namespace Fat12

/-! ## FAT entry decoding -/

theorem fatWord_eq_some {fat : List Nat} {i : Nat} (h : i + 1 < fat.length) :
    fatWord fat i = some (fat.getD i 0 + 256 * fat.getD (i + 1) 0) := by
  have h0 : i < fat.length := by omega
  simp [fatWord, List.getElem?_eq_getElem h, List.getElem?_eq_getElem h0,
    List.getD_eq_getElem?_getD]

theorem fatWord_eq_none {fat : List Nat} {i : Nat} (h : ¬ i + 1 < fat.length) :
    fatWord fat i = none := by
  have h1 : fat[i + 1]? = none := List.getElem?_eq_none (by omega)
  unfold fatWord
  rw [h1]
  cases fat[i]? <;> rfl

theorem getD_lt_of_bytes {m : List Nat} (hm : ∀ b ∈ m, b < 256) (i : Nat) :
    m.getD i 0 < 256 := by
  rw [List.getD_eq_getElem?_getD]
  by_cases h : i < m.length
  · rw [List.getElem?_eq_getElem h]
    exact hm _ (List.getElem_mem h)
  · rw [List.getElem?_eq_none (by omega)]
    simp

theorem nextCluster_eq_specNext (fat : List Nat) (c : Nat) (hfat : ∀ b ∈ fat, b < 256) :
    nextCluster fat c = specNext fat c := by
  unfold nextCluster specNext fatIndex
  by_cases h : c * 3 / 2 + 1 < fat.length
  · have hlo := getD_lt_of_bytes hfat (c * 3 / 2)
    have hhi := getD_lt_of_bytes hfat (c * 3 / 2 + 1)
    rw [fatWord_eq_some h]
    simp only [h, if_true]
    by_cases hc : c % 2 = 0
    · simp only [hc, if_true]
      congr 1
      have : (4095 : Nat) = 2 ^ 12 - 1 := by norm_num
      rw [this, Nat.and_pow_two_sub_one_eq_mod]
      omega
    · simp only [hc, if_false]
      congr 1
      rw [Nat.shiftRight_eq_div_pow]
      omega
  · rw [fatWord_eq_none h]
    simp [h]

theorem readFileBody_of_next {g : Globals} {s : WalkState} {c : Nat} (disk : List Nat)
    (h : nextCluster g.global_Fat s.currentCluster = some c) :
    ∃ s1, readFileBody g disk s = .ok s1 ∧ s1.currentCluster = c := by
  simp [readFileBody, h]

/-- C2: in one step of the chain walk, for a FAT of bytes and a current cluster `c`
whose two bytes at offset `floor(c*3/2)` lie inside the table, the next cluster is the
low 12 bits of the little-endian word at that offset when `c` is even and that word
shifted right by 4 bits when `c` is odd. -/
theorem C2_next_cluster_decoding (g : Globals) (disk : List Nat) (s : WalkState)
    (hfat : ∀ b ∈ g.global_Fat, b < 256)
    (hin : s.currentCluster * 3 / 2 + 1 < g.global_Fat.length) :
    ∃ s1, readFileBody g disk s = .ok s1 ∧
      s1.currentCluster =
        (if s.currentCluster % 2 = 0 then
          (g.global_Fat.getD (s.currentCluster * 3 / 2) 0 +
            256 * g.global_Fat.getD (s.currentCluster * 3 / 2 + 1) 0) % 4096
        else
          (g.global_Fat.getD (s.currentCluster * 3 / 2) 0 +
            256 * g.global_Fat.getD (s.currentCluster * 3 / 2 + 1) 0) / 16) ∧
      specNext g.global_Fat s.currentCluster = some s1.currentCluster := by
  have hn : nextCluster g.global_Fat s.currentCluster =
      some (if s.currentCluster % 2 = 0 then
          (g.global_Fat.getD (s.currentCluster * 3 / 2) 0 +
            256 * g.global_Fat.getD (s.currentCluster * 3 / 2 + 1) 0) % 4096
        else
          (g.global_Fat.getD (s.currentCluster * 3 / 2) 0 +
            256 * g.global_Fat.getD (s.currentCluster * 3 / 2 + 1) 0) / 16) := by
    rw [nextCluster_eq_specNext _ _ hfat]
    simp [specNext, hin]
  obtain ⟨s1, h1, h2⟩ := readFileBody_of_next disk hn
  refine ⟨s1, h1, h2, ?_⟩
  rw [← nextCluster_eq_specNext _ _ hfat, hn, h2]

/-! ## Round trip through the reference packer -/

theorem nextCluster_cons3 (a b c : Nat) (l : List Nat) (j : Nat) :
    nextCluster (a :: b :: c :: l) (j + 2) = nextCluster l j := by
  have hidx : fatIndex (j + 2) = fatIndex j + 3 := by unfold fatIndex; omega
  have hpar : (j + 2) % 2 = j % 2 := by omega
  unfold nextCluster
  rw [hidx, hpar]
  have hw : fatWord (a :: b :: c :: l) (fatIndex j + 3) = fatWord l (fatIndex j) := by
    simp [fatWord]
  rw [hw]

theorem nextCluster_referencePack (tail : List Nat) :
    ∀ (vs : List Nat) (i : Nat) (hi : i < vs.length), (∀ v ∈ vs, v < 4096) →
      nextCluster (referencePack vs ++ tail) i = some (vs.get ⟨i, hi⟩)
  | [], i, hi, _ => by simp at hi
  | [v], i, hi, hv => by
    have h0 : i = 0 := by simpa using hi
    subst h0
    have hv0 : v < 4096 := hv v (by simp)
    simp only [referencePack, nextCluster, fatIndex, fatWord, List.cons_append,
      List.getElem?_cons_zero, List.getElem?_cons_succ, List.get_eq_getElem,
      List.getElem_cons_zero, Nat.zero_mul, Nat.zero_div, Nat.zero_add, Nat.zero_mod, if_true]
    congr 1
    have : (4095 : Nat) = 2 ^ 12 - 1 := by norm_num
    rw [this, Nat.and_pow_two_sub_one_eq_mod]
    omega
  | v0 :: v1 :: rest, 0, _, hv => by
    have hv0 : v0 < 4096 := hv v0 (by simp)
    simp only [referencePack, nextCluster, fatIndex, fatWord, List.cons_append,
      List.getElem?_cons_zero, List.getElem?_cons_succ, List.get_eq_getElem,
      List.getElem_cons_zero, Nat.zero_mul, Nat.zero_div, Nat.zero_add, Nat.zero_mod, if_true]
    congr 1
    have : (4095 : Nat) = 2 ^ 12 - 1 := by norm_num
    rw [this, Nat.and_pow_two_sub_one_eq_mod]
    omega
  | v0 :: v1 :: rest, 1, _, hv => by
    have hv0 : v0 < 4096 := hv v0 (by simp)
    have hv1 : v1 < 4096 := hv v1 (by simp)
    simp only [referencePack, nextCluster, fatIndex, fatWord, List.cons_append,
      List.getElem?_cons_zero, List.getElem?_cons_succ, List.get_eq_getElem,
      List.getElem_cons_succ, List.getElem_cons_zero]
    norm_num
    rw [Nat.shiftRight_eq_div_pow]
    omega
  | v0 :: v1 :: rest, j + 2, hi, hv => by
    have hrest : ∀ v ∈ rest, v < 4096 := fun v hm => hv v (by simp [hm])
    have hj : j < rest.length := by simpa using hi
    simp only [referencePack, List.cons_append]
    rw [nextCluster_cons3, nextCluster_referencePack tail rest j hj hrest]
    simp

theorem nextCluster_some_inside {fat : List Nat} {c v : Nat}
    (h : nextCluster fat c = some v) : fatIndex c + 1 < fat.length := by
  by_contra hn
  simp [nextCluster, fatWord_eq_none hn] at h

/-- C3: packing 12-bit values with the reference FAT12 packer and decoding entry `i`
with the program's next-cluster computation gives back exactly the `i`-th value, for
every index of the list; the two bytes of every such entry lie inside the packed
table, and bytes following the packed entries (sector padding) change nothing. -/
theorem C3_pack_decode_roundtrip (vs : List Nat) (hvs : ∀ v ∈ vs, v < 4096)
    (i : Nat) (hi : i < vs.length) :
    fatIndex i + 1 < (referencePack vs).length ∧
    nextCluster (referencePack vs) i = some (vs.get ⟨i, hi⟩) ∧
    (∀ tail, nextCluster (referencePack vs ++ tail) i = some (vs.get ⟨i, hi⟩)) ∧
    (∀ (g : Globals) (disk : List Nat) (s : WalkState) (tail : List Nat),
      g.global_Fat = referencePack vs ++ tail → s.currentCluster = i →
      ∃ s1, readFileBody g disk s = .ok s1 ∧ s1.currentCluster = vs.get ⟨i, hi⟩) := by
  have h0 : nextCluster (referencePack vs) i = some (vs.get ⟨i, hi⟩) := by
    simpa using nextCluster_referencePack [] vs i hi hvs
  refine ⟨nextCluster_some_inside h0, h0, fun tail => nextCluster_referencePack tail vs i hi hvs,
    ?_⟩
  intro g disk s tail hg hs
  apply readFileBody_of_next
  rw [hg, hs]
  exact nextCluster_referencePack tail vs i hi hvs

theorem C3_pack_decode_roundtrip_witness :
    fatIndex 2 + 1 < (referencePack [0x003, 0xFFF, 0xABC]).length ∧
    nextCluster (referencePack [0x003, 0xFFF, 0xABC]) 2 = some 0xABC :=
  ⟨(C3_pack_decode_roundtrip [0x003, 0xFFF, 0xABC] (by decide) 2 (by decide)).1,
   (C3_pack_decode_roundtrip [0x003, 0xFFF, 0xABC] (by decide) 2 (by decide)).2.1⟩

/-! ## Directory lookup -/

theorem findFileFrom_spec (g : Globals) (name : List Nat) (hname : 11 ≤ name.length) :
    ∀ (n i : Nat), sizeofDirectoryEntry * (i + n) ≤ g.global_RootDirectory.length →
      (findFileFrom g name i n = .returns none ∧
        ∀ j, i ≤ j → j < i + n →
          (directoryEntryAt g.global_RootDirectory j).Name ≠ name.take 11) ∨
      (∃ k, i ≤ k ∧ k < i + n ∧ findFileFrom g name i n = .returns (some k) ∧
        (directoryEntryAt g.global_RootDirectory k).Name = name.take 11 ∧
        ∀ j, i ≤ j → j < k →
          (directoryEntryAt g.global_RootDirectory j).Name ≠ name.take 11)
  | 0, i, _ => by
    left
    refine ⟨rfl, ?_⟩
    intro j h1 h2
    omega
  | n + 1, i, hdir => by
    have h1 : ¬ name.length < 11 := by omega
    have h2 : ¬ g.global_RootDirectory.length < sizeofDirectoryEntry * (i + 1) := by
      have : sizeofDirectoryEntry * (i + 1) ≤ sizeofDirectoryEntry * (i + (n + 1)) :=
        Nat.mul_le_mul_left _ (by omega)
      omega
    by_cases hm : name.take 11 = (directoryEntryAt g.global_RootDirectory i).Name
    · right
      refine ⟨i, le_refl _, by omega, ?_, hm.symm, ?_⟩
      · simp [findFileFrom, h1, h2, hm]
      · intro j h3 h4
        omega
    · have hstep : findFileFrom g name i (n + 1) = findFileFrom g name (i + 1) n := by
        simp [findFileFrom, h1, h2, hm]
      have hdir1 : sizeofDirectoryEntry * (i + 1 + n) ≤ g.global_RootDirectory.length := by
        have : i + 1 + n = i + (n + 1) := by omega
        rw [this]
        exact hdir
      rcases findFileFrom_spec g name hname n (i + 1) hdir1 with ⟨hr, hall⟩ | ⟨k, hk1, hk2, hr, hk3, hk4⟩
      · left
        refine ⟨by rw [hstep, hr], ?_⟩
        intro j h3 h4
        by_cases hji : j = i
        · subst hji
          exact fun h => hm h.symm
        · exact hall j (by omega) (by omega)
      · right
        refine ⟨k, by omega, by omega, by rw [hstep, hr], hk3, ?_⟩
        intro j h3 h4
        by_cases hji : j = i
        · subst hji
          exact fun h => hm h.symm
        · exact hk4 j (by omega) h4

/-- C4: for a root directory block holding `DirEntryCount` entries and an 11-byte name
(the first 11 bytes at `name`): `findFile` returns `NULL` exactly when none of the first
`DirEntryCount` entries has those 11 name bytes, and otherwise returns the entry of
smallest index whose name matches byte for byte. -/
theorem C4_findFile_first_match (g : Globals) (name : List Nat) (hname : 11 ≤ name.length)
    (hdir : sizeofDirectoryEntry * g.global_BootSector.DirEntryCount
      ≤ g.global_RootDirectory.length) :
    ((∀ i, i < g.global_BootSector.DirEntryCount →
        (directoryEntryAt g.global_RootDirectory i).Name ≠ name.take 11) →
      findFile g name = .returns none) ∧
    (∀ k, k < g.global_BootSector.DirEntryCount →
      (directoryEntryAt g.global_RootDirectory k).Name = name.take 11 →
      ∃ i, i ≤ k ∧ findFile g name = .returns (some i) ∧
        (directoryEntryAt g.global_RootDirectory i).Name = name.take 11 ∧
        ∀ j, j < i → (directoryEntryAt g.global_RootDirectory j).Name ≠ name.take 11) := by
  have hdir0 : sizeofDirectoryEntry * (0 + g.global_BootSector.DirEntryCount)
      ≤ g.global_RootDirectory.length := by simpa using hdir
  have key := findFileFrom_spec g name hname g.global_BootSector.DirEntryCount 0 hdir0
  constructor
  · intro hnone
    rcases key with ⟨hr, _⟩ | ⟨k, _, hk2, _, hk3, _⟩
    · exact hr
    · exact absurd hk3 (hnone k (by omega))
  · intro k hk hmatch
    rcases key with ⟨_, hall⟩ | ⟨i, _, hi2, hr, hi3, hi4⟩
    · exact absurd hmatch (hall k (by omega) (by omega))
    · refine ⟨i, ?_, hr, hi3, fun j hj => hi4 j (by omega) hj⟩
      by_contra hlt
      exact hi4 k (by omega) (by omega) hmatch

set_option maxRecDepth 100000 in
theorem C4_findFile_first_match_witness :
    11 ≤ (text "HELLO   TXT").length ∧
    ∃ i, i ≤ 0 ∧ findFile helloGlobals (text "HELLO   TXT") = .returns (some i) ∧
      (directoryEntryAt helloGlobals.global_RootDirectory i).Name
        = (text "HELLO   TXT").take 11 ∧
      ∀ j, j < i → (directoryEntryAt helloGlobals.global_RootDirectory j).Name
        ≠ (text "HELLO   TXT").take 11 :=
  ⟨by decide,
   (C4_findFile_first_match helloGlobals (text "HELLO   TXT") (by decide) (by decide)).2 0
     (by decide) (by decide)⟩

/-! ## The cluster walk along a chain -/

theorem readSectors_snd (g : Globals) (disk : List Nat) (lba count : Nat) :
    (readSectors g disk lba count).2 =
      bytesAt disk ((lba * g.global_BootSector.BytesPerSector) % 4294967296)
        (g.global_BootSector.BytesPerSector * count) := rfl

theorem readSectors_length_of_ok {g : Globals} {disk : List Nat} {lba count : Nat}
    (h : (readSectors g disk lba count).1 = true) :
    (readSectors g disk lba count).2.length = g.global_BootSector.BytesPerSector * count := by
  simp only [readSectors, fread, beq_iff_eq] at h ⊢
  have hle : ((disk.drop ((lba * g.global_BootSector.BytesPerSector) % 4294967296)).take
      (g.global_BootSector.BytesPerSector * count)).length
      ≤ g.global_BootSector.BytesPerSector * count := by
    rw [List.length_take]
    exact Nat.min_le_left _ _
  by_cases hz : g.global_BootSector.BytesPerSector = 0 ∨ count = 0
  · rw [if_pos hz] at h
    rcases hz with hz | hz
    · simp [hz]
    · simp [hz]
  · rw [if_neg hz] at h
    push_neg at hz
    have hpos : 0 < g.global_BootSector.BytesPerSector := Nat.pos_of_ne_zero hz.1
    have := Nat.div_mul_le_self ((disk.drop ((lba * g.global_BootSector.BytesPerSector)
      % 4294967296)).take (g.global_BootSector.BytesPerSector * count)).length
      g.global_BootSector.BytesPerSector
    rw [h, Nat.mul_comm] at this
    omega

theorem readFileBody_eq {g : Globals} {s : WalkState} {v : Nat} (disk : List Nat)
    (hs : s.ok = true) (hn : nextCluster g.global_Fat s.currentCluster = some v) :
    readFileBody g disk s = .ok
      { ok := (readSectors g disk (clusterLba g s.currentCluster)
          g.global_BootSector.SectorsPerCluster).1
        currentCluster := v
        outputBuffer := s.outputBuffer ++ clusterBytes g disk s.currentCluster
        trace := s.trace ++
          [Event.sectorRead (clusterLba g s.currentCluster)
            g.global_BootSector.SectorsPerCluster
            (readSectors g disk (clusterLba g s.currentCluster)
              g.global_BootSector.SectorsPerCluster).1,
           Event.fatLoad s.currentCluster] } := by
  simp [readFileBody, hs, hn, clusterBytes, readSectors_snd]

theorem readFileLoop_chain (g : Globals) (disk : List Nat) :
    ∀ (rest : List Nat) (c fuel : Nat) (s : WalkState),
      s.ok = true → s.currentCluster = c →
      isChain g.global_Fat (c :: rest) = true →
      (∀ x ∈ c :: rest, (readSectors g disk (clusterLba g x)
        g.global_BootSector.SectorsPerCluster).1 = true) →
      (c :: rest).length ≤ fuel →
      ∃ v, 0x0FF8 ≤ v ∧
        readFileLoop g disk fuel s = .returns
          { ok := true
            currentCluster := v
            outputBuffer := s.outputBuffer ++ (c :: rest).flatMap (clusterBytes g disk)
            trace := s.trace ++ (c :: rest).flatMap (iterationEvents g) }
  | [], c, fuel, s, hs, hc, hchain, hreads, hfuel => by
    obtain ⟨f, rfl⟩ : ∃ f, fuel = f + 1 := ⟨fuel - 1, by simp at hfuel; omega⟩
    subst hc
    simp only [isChain] at hchain
    cases hn : nextCluster g.global_Fat s.currentCluster with
    | none => simp [hn] at hchain
    | some v =>
      simp only [hn, decide_eq_true_eq] at hchain
      have hr := hreads s.currentCluster (by simp)
      refine ⟨v, hchain, ?_⟩
      have hnot : ¬ v < 4088 := by omega
      simp [readFileLoop, readFileBody_eq disk hs hn, hr, hnot, iterationEvents]
  | c1 :: rest, c, fuel, s, hs, hc, hchain, hreads, hfuel => by
    obtain ⟨f, rfl⟩ : ∃ f, fuel = f + 1 := ⟨fuel - 1, by simp at hfuel; omega⟩
    subst hc
    simp only [isChain, Bool.and_eq_true, beq_iff_eq, decide_eq_true_eq] at hchain
    obtain ⟨⟨hn, hlt⟩, hrest⟩ := hchain
    have hr := hreads s.currentCluster (by simp)
    have hreads1 : ∀ x ∈ c1 :: rest, (readSectors g disk (clusterLba g x)
        g.global_BootSector.SectorsPerCluster).1 = true :=
      fun x hx => hreads x (List.mem_cons_of_mem _ hx)
    have hfuel1 : (c1 :: rest).length ≤ f := by simp at hfuel ⊢; omega
    obtain ⟨v, hv, hloop⟩ := readFileLoop_chain g disk rest c1 f
      { ok := true
        currentCluster := c1
        outputBuffer := s.outputBuffer ++ clusterBytes g disk s.currentCluster
        trace := s.trace ++ iterationEvents g s.currentCluster }
      rfl rfl hrest hreads1 hfuel1
    refine ⟨v, hv, ?_⟩
    have hlt1 : c1 < 4088 := hlt
    simp only [readFileLoop, readFileBody_eq disk hs hn, hr, hlt1, decide_True, Bool.and_self,
      if_true]
    simp only [iterationEvents] at hloop ⊢
    rw [hloop]
    simp [List.flatMap_cons, List.append_assoc, iterationEvents]

theorem sectorReads_append (a b : List Event) :
    sectorReads (a ++ b) = sectorReads a ++ sectorReads b := by
  induction a with
  | nil => rfl
  | cons e t ih => cases e <;> simp [sectorReads, ih]

theorem fatLoads_append (a b : List Event) :
    fatLoads (a ++ b) = fatLoads a ++ fatLoads b := by
  induction a with
  | nil => rfl
  | cons e t ih => cases e <;> simp [fatLoads, ih]

theorem sectorReads_iterations (g : Globals) (l : List Nat) :
    sectorReads (l.flatMap (iterationEvents g)) =
      l.map (fun c => (clusterLba g c, g.global_BootSector.SectorsPerCluster, true)) := by
  induction l with
  | nil => rfl
  | cons c t ih =>
    rw [List.flatMap_cons, sectorReads_append, ih]
    rfl

theorem fatLoads_iterations (g : Globals) (l : List Nat) :
    fatLoads (l.flatMap (iterationEvents g)) = l := by
  induction l with
  | nil => rfl
  | cons c t ih =>
    rw [List.flatMap_cons, fatLoads_append, ih]
    rfl

theorem clusterLba_eq (g : Globals) (c : Nat) (hc : 2 ≤ c)
    (h : g.global_RootDirectoryEnd + (c - 2) * g.global_BootSector.SectorsPerCluster
      < 4294967296) :
    clusterLba g c =
      g.global_RootDirectoryEnd + (c - 2) * g.global_BootSector.SectorsPerCluster := by
  unfold clusterLba
  have hcast : ((g.global_RootDirectoryEnd : Int) +
      ((c : Int) - 2) * (g.global_BootSector.SectorsPerCluster : Int)) =
      ((g.global_RootDirectoryEnd + (c - 2) * g.global_BootSector.SectorsPerCluster : Nat)
        : Int) := by
    push_cast [Nat.cast_sub hc]
    ring
  rw [hcast]
  have hlt : ((g.global_RootDirectoryEnd + (c - 2) * g.global_BootSector.SectorsPerCluster
      : Nat) : Int) < 4294967296 := by exact_mod_cast h
  rw [Int.emod_eq_of_lt (Int.natCast_nonneg _) hlt, Int.toNat_natCast]

theorem clusterLba_int (g : Globals) (c : Nat)
    (h0 : 0 ≤ (g.global_RootDirectoryEnd : Int)
      + ((c : Int) - 2) * (g.global_BootSector.SectorsPerCluster : Int))
    (hlt : (g.global_RootDirectoryEnd : Int)
      + ((c : Int) - 2) * (g.global_BootSector.SectorsPerCluster : Int) < 4294967296) :
    (clusterLba g c : Int) = (g.global_RootDirectoryEnd : Int)
      + ((c : Int) - 2) * (g.global_BootSector.SectorsPerCluster : Int) := by
  unfold clusterLba
  rw [Int.emod_eq_of_lt h0 hlt, Int.toNat_of_nonneg h0]

/-- C1: when the FAT chain from `FirstClusterLow` is `c_1, ..., c_n` (every later
`c_i < 0x0FF8`, the entry decoded for `c_n` at least `0x0FF8`) and every cluster read
succeeds, `readFile` returns success after exactly `n` reads, the `i`-th of
`SectorsPerCluster` sectors at the 32-bit LBA
`global_RootDirectoryEnd + (c_i - 2) * SectorsPerCluster` (that integer itself whenever
it lies in `0 .. 2^32 - 1`), and the output buffer holds the `n` cluster contents
concatenated in chain order. -/
theorem C1_readFile_reads_chain (g : Globals) (disk : List Nat) (fileEntry : DirectoryEntry)
    (rest : List Nat) (fuel : Nat)
    (hchain : isChain g.global_Fat (fileEntry.FirstClusterLow :: rest) = true)
    (hreads : ∀ c ∈ fileEntry.FirstClusterLow :: rest,
      (readSectors g disk (clusterLba g c) g.global_BootSector.SectorsPerCluster).1 = true)
    (hfuel : (fileEntry.FirstClusterLow :: rest).length ≤ fuel) :
    ∃ s, readFile g fileEntry disk fuel = .returns s ∧ s.ok = true ∧
      s.trace = (fileEntry.FirstClusterLow :: rest).flatMap (iterationEvents g) ∧
      sectorReads s.trace = (fileEntry.FirstClusterLow :: rest).map
        (fun c => (clusterLba g c, g.global_BootSector.SectorsPerCluster, true)) ∧
      fatLoads s.trace = fileEntry.FirstClusterLow :: rest ∧
      s.outputBuffer = (fileEntry.FirstClusterLow :: rest).flatMap (clusterBytes g disk) ∧
      (∀ c ∈ fileEntry.FirstClusterLow :: rest, (clusterBytes g disk c).length =
        g.global_BootSector.BytesPerSector * g.global_BootSector.SectorsPerCluster) ∧
      (∀ c ∈ fileEntry.FirstClusterLow :: rest,
        0 ≤ (g.global_RootDirectoryEnd : Int)
          + ((c : Int) - 2) * (g.global_BootSector.SectorsPerCluster : Int) →
        (g.global_RootDirectoryEnd : Int)
          + ((c : Int) - 2) * (g.global_BootSector.SectorsPerCluster : Int) < 4294967296 →
        (clusterLba g c : Int) = (g.global_RootDirectoryEnd : Int)
          + ((c : Int) - 2) * (g.global_BootSector.SectorsPerCluster : Int)) := by
  obtain ⟨v, _, hloop⟩ := readFileLoop_chain g disk rest fileEntry.FirstClusterLow fuel
    { ok := true, currentCluster := fileEntry.FirstClusterLow, outputBuffer := [], trace := [] }
    rfl rfl hchain hreads hfuel
  refine ⟨_, hloop, rfl, by simp, ?_, ?_, by simp, ?_, ?_⟩
  · simp only [List.nil_append]
    exact sectorReads_iterations g _
  · simp only [List.nil_append]
    exact fatLoads_iterations g _
  · intro c hc
    have := readSectors_length_of_ok (hreads c hc)
    rwa [readSectors_snd] at this
  · intro c _ h0 hlt
    exact clusterLba_int g c h0 hlt

theorem C1_readFile_reads_chain_witness :
    isChain tinyGlobals.global_Fat ((entryWith 2 10).FirstClusterLow :: [3, 4]) = true ∧
    ∃ s, readFile tinyGlobals (entryWith 2 10) tinyDisk 3 = .returns s ∧ s.ok = true ∧
      sectorReads s.trace = [(2, 1, true), (3, 1, true), (4, 1, true)] ∧
      s.outputBuffer = [8, 9, 10, 11, 12, 13, 14, 15, 16, 17, 18, 19] := by
  refine ⟨by decide, ?_⟩
  obtain ⟨s, h1, h2, _, h4, _, h6, _⟩ :=
    C1_readFile_reads_chain tinyGlobals tinyDisk (entryWith 2 10) [3, 4] 3
      (by decide) (by decide) (by decide)
  exact ⟨s, h1, h2, by rw [h4]; decide, by rw [h6]; decide⟩

/-! ## Reads that lie inside the image -/

theorem fread_inside (disk : List Nat) (pos size count : Nat) (hsize : 0 < size)
    (hlen : pos + size * count ≤ disk.length) :
    fread disk pos size count = (count, bytesAt disk pos (size * count)) := by
  have hl : ((disk.drop pos).take (size * count)).length = size * count := by
    rw [List.length_take, List.length_drop]
    omega
  unfold fread bytesAt
  simp only [hl]
  by_cases hc : count = 0
  · simp [hc]
  · have hs : size ≠ 0 := by omega
    simp [hc, hs, Nat.mul_div_cancel_left _ hsize]

theorem readSectors_inside (g : Globals) (disk : List Nat) (lba count : Nat)
    (hbps : 0 < g.global_BootSector.BytesPerSector)
    (hpos : lba * g.global_BootSector.BytesPerSector < 4294967296)
    (hlen : lba * g.global_BootSector.BytesPerSector
      + g.global_BootSector.BytesPerSector * count ≤ disk.length) :
    readSectors g disk lba count =
      (true, bytesAt disk (lba * g.global_BootSector.BytesPerSector)
        (g.global_BootSector.BytesPerSector * count)) := by
  simp only [readSectors]
  rw [Nat.mod_eq_of_lt hpos, fread_inside disk _ _ count hbps hlen]
  simp

theorem bytesAt_length (disk : List Nat) (pos n : Nat) (h : pos + n ≤ disk.length) :
    (bytesAt disk pos n).length = n := by
  unfold bytesAt
  rw [List.length_take, List.length_drop]
  omega

theorem take_bytesAt (disk : List Nat) (pos n k : Nat) (h : k ≤ n) :
    (bytesAt disk pos n).take k = bytesAt disk pos k := by
  unfold bytesAt
  rw [List.take_take, Nat.min_eq_left h]

/-! ## End to end on the one-file volume -/

theorem readBootSector_inside (g : Globals) (disk : List Nat) (hlen : 62 ≤ disk.length) :
    readBootSector g disk =
      (true, { g with global_BootSector := decodeBootSector (disk.take 62) }) := by
  have h1 : fread disk 0 62 1 = (1, bytesAt disk 0 (62 * 1)) :=
    fread_inside disk 0 62 1 (by decide) (by simpa using hlen)
  have h2 : bytesAt disk 0 (62 * 1) = disk.take 62 := by
    simp [bytesAt]
  have h3 : (disk.take 62).length = 62 := by
    rw [List.length_take]; omega
  simp only [readBootSector, sizeofBootSector, h1, h2, h3]
  simp

theorem readFat_hello (g : Globals) (disk : List Nat) (hlen : 2048 ≤ disk.length)
    (hbps : g.global_BootSector.BytesPerSector = 512)
    (hres : g.global_BootSector.ReservedSectors = 1)
    (hspf : g.global_BootSector.SectorsPerFat = 1) :
    readFat g disk = .returns (true, { g with global_Fat := bytesAt disk 512 512 }) := by
  have hr := readSectors_inside g disk 1 1 (by omega) (by omega) (by omega)
  simp only [readFat, hbps, hres, hspf] at hr ⊢
  simp [hr]

theorem readRootDirectory_hello (g : Globals) (disk : List Nat) (hlen : 2048 ≤ disk.length)
    (hbps : g.global_BootSector.BytesPerSector = 512)
    (hres : g.global_BootSector.ReservedSectors = 1)
    (hfc : g.global_BootSector.FatCount = 1)
    (hcnt : g.global_BootSector.DirEntryCount = 16)
    (hspf : g.global_BootSector.SectorsPerFat = 1) :
    readRootDirectory g disk = .returns (true, { g with
      global_RootDirectory := bytesAt disk 1024 512, global_RootDirectoryEnd := 3 }) := by
  have hr := readSectors_inside g disk 2 1 (by omega) (by omega) (by omega)
  simp only [readRootDirectory, hbps, hres, hspf, hfc, hcnt, sizeofDirectoryEntry] at hr ⊢
  simp [hr]

theorem mainOnDisk_of_loadedGlobals (disk argv2 : List Nat) (fuel i : Nat) (g : Globals)
    (hg : loadedGlobals disk = some g)
    (hfind : findFile g (argv2 ++ [0]) = .returns (some i)) :
    mainOnDisk disk argv2 fuel = mainReadAndPrint g disk argv2 i fuel := by
  simp only [loadedGlobals] at hg
  simp only [mainOnDisk]
  split at hg
  · cases hg
  · rename_i h1
    rw [if_neg h1]
    split at hg
    · rename_i g2 h2
      rw [h2]
      simp only []
      split at hg
      · rename_i g3 h3
        rw [h3]
        simp only []
        cases hg
        rw [hfind]
      · cases hg
    · cases hg

/-- C5: end to end on every image of at least four 512-byte sectors whose boot sector
has bytesPerSector=512, sectorsPerCluster=1, reservedSectors=1, fatCount=1,
dirEntryCount=16, sectorsPerFat=1, whose root directory (sector 2) has an entry named
"HELLO   TXT" (none before it with that name) with firstClusterLow=2 and size=5, whose
FAT (sector 1) marks cluster 2 end-of-chain and whose sector 3 (cluster 2) begins with
"HELLO": the program returns 0 and prints exactly the five bytes HELLO and a newline. -/
theorem C5_hello_end_to_end (fopen : List Nat → Option (List Nat))
    (argv0 path disk : List Nat) (i fuel : Nat)
    (hopen : fopen path = some disk)
    (hlen : 2048 ≤ disk.length)
    (hbps : (decodeBootSector (disk.take 62)).BytesPerSector = 512)
    (hspc : (decodeBootSector (disk.take 62)).SectorsPerCluster = 1)
    (hres : (decodeBootSector (disk.take 62)).ReservedSectors = 1)
    (hfc : (decodeBootSector (disk.take 62)).FatCount = 1)
    (hcnt : (decodeBootSector (disk.take 62)).DirEntryCount = 16)
    (hspf : (decodeBootSector (disk.take 62)).SectorsPerFat = 1)
    (hi : i < 16)
    (hname : (directoryEntryAt (bytesAt disk 1024 512) i).Name = text "HELLO   TXT")
    (hfirst : ∀ j, j < i →
      (directoryEntryAt (bytesAt disk 1024 512) j).Name ≠ text "HELLO   TXT")
    (hfcl : (directoryEntryAt (bytesAt disk 1024 512) i).FirstClusterLow = 2)
    (hsize : (directoryEntryAt (bytesAt disk 1024 512) i).Size = 5)
    (heoc : isChain (bytesAt disk 512 512) [2] = true)
    (hdata : bytesAt disk 1536 5 = text "HELLO")
    (hfuel : 0 < fuel) :
    main fopen argv0 [path, text "HELLO   TXT"] fuel =
      .returns { status := 0, stdout := text "HELLO\n", stderr := [] } ∧
    ∃ g s, loadedGlobals disk = some g ∧
      findFile g (text "HELLO   TXT" ++ [0]) = .returns (some i) ∧
      readFile g (directoryEntryAt g.global_RootDirectory i) disk fuel = .returns s ∧
      s.ok = true ∧ sectorReads s.trace = [(3, 1, true)] ∧
      trimmed (directoryEntryAt g.global_RootDirectory i) s.outputBuffer = text "HELLO" := by
  have hb := readBootSector_inside initialGlobals disk (by omega)
  have hf := readFat_hello
    { initialGlobals with global_BootSector := decodeBootSector (disk.take 62) } disk hlen
    hbps hres hspf
  have hd := readRootDirectory_hello
    { global_BootSector := decodeBootSector (disk.take 62)
      global_Fat := bytesAt disk 512 512
      global_RootDirectory := initialGlobals.global_RootDirectory
      global_RootDirectoryEnd := initialGlobals.global_RootDirectoryEnd } disk hlen
    hbps hres hfc hcnt hspf
  generalize hg : ({ global_BootSector := decodeBootSector (disk.take 62)
                     global_Fat := bytesAt disk 512 512
                     global_RootDirectory := bytesAt disk 1024 512
                     global_RootDirectoryEnd := 3 } : Globals) = g at hd
  have hgb : g.global_BootSector = decodeBootSector (disk.take 62) := by rw [← hg]
  have hgf : g.global_Fat = bytesAt disk 512 512 := by rw [← hg]
  have hgd : g.global_RootDirectory = bytesAt disk 1024 512 := by rw [← hg]
  have hge : g.global_RootDirectoryEnd = 3 := by rw [← hg]
  have htake : (text "HELLO   TXT" ++ [0]).take 11 = text "HELLO   TXT" := by decide
  have hfind : findFile g (text "HELLO   TXT" ++ [0]) = .returns (some i) := by
    have hdir : sizeofDirectoryEntry * (0 + 16) ≤ g.global_RootDirectory.length := by
      rw [hgd, bytesAt_length disk 1024 512 (by omega)]
      decide
    rcases findFileFrom_spec g (text "HELLO   TXT" ++ [0]) (by decide) 16 0 hdir with
      ⟨_, hall⟩ | ⟨k, _, _, hr, hk3, hk4⟩
    · exact absurd (by rw [hgd, htake]; exact hname) (hall i (by omega) (by omega))
    · rw [hgd, htake] at hk3 hk4
      have hki : k = i := by
        rcases Nat.lt_trichotomy k i with h | h | h
        · exact absurd hk3 (hfirst k h)
        · exact h
        · exact absurd hname (hk4 i (by omega) h)
      subst hki
      simpa [findFile, hgb, hcnt] using hr
  have hlba : clusterLba g 2 = 3 := by
    rw [clusterLba_eq g 2 (by omega) (by rw [hge]; simp)]
    simp [hge]
  have hcb : clusterBytes g disk 2 = bytesAt disk 1536 512 := by
    simp [clusterBytes, hlba, hgb, hbps, hspc]
  have hrd : ∀ c ∈ [2], (readSectors g disk (clusterLba g c)
      g.global_BootSector.SectorsPerCluster).1 = true := by
    intro c hc
    have hc2 : c = 2 := by simpa using hc
    subst hc2
    rw [hlba, readSectors_inside g disk 3 _ (by rw [hgb, hbps]; omega)
      (by rw [hgb, hbps]; omega) (by rw [hgb, hbps, hspc]; omega)]
  obtain ⟨v, _, hloop⟩ := readFileLoop_chain g disk [] 2 fuel
    { ok := true, currentCluster := 2, outputBuffer := [], trace := [] } rfl rfl
    (by rw [hgf]; exact heoc) hrd (by simpa using hfuel)
  have hrf : readFile g (directoryEntryAt g.global_RootDirectory i) disk fuel = .returns
      { ok := true, currentCluster := v, outputBuffer := bytesAt disk 1536 512,
        trace := iterationEvents g 2 } := by
    unfold readFile
    rw [hgd, hfcl, hloop]
    simp [hcb]
  have hout : printContents (directoryEntryAt g.global_RootDirectory i)
      (bytesAt disk 1536 512) = text "HELLO\n" := by
    unfold printContents trimmed
    rw [hgd, hsize, take_bytesAt disk 1536 512 5 (by omega), hdata]
    decide
  have hcap : bufferLength g (directoryEntryAt g.global_RootDirectory i) = 517 := by
    simp [bufferLength, hgd, hsize, hgb, hbps]
  have hmrp : mainReadAndPrint g disk (text "HELLO   TXT") i fuel =
      .returns { status := 0, stdout := text "HELLO\n", stderr := [] } := by
    have hl : (bytesAt disk 1536 512).length = 512 := bytesAt_length disk 1536 512 (by omega)
    have hsz : (directoryEntryAt g.global_RootDirectory i).Size = 5 := by rw [hgd, hsize]
    simp only [mainReadAndPrint, hrf, hcap, hl, hout, hsz]
    simp
  have hload : loadedGlobals disk = some g := by
    simp only [loadedGlobals, hb]
    simp only [Bool.not_true, Bool.false_eq_true, if_false]
    rw [hf]
    simp only []
    rw [hd]
  refine ⟨?_, g, _, hload, hfind, hrf, rfl, ?_, ?_⟩
  · simp only [main, hopen]
    rw [mainOnDisk_of_loadedGlobals disk _ fuel i g hload hfind, hmrp]
  · simp [iterationEvents, sectorReads, hlba, hgb, hspc]
  · unfold trimmed
    rw [hgd, hsize, take_bytesAt disk 1536 512 5 (by omega), hdata]

theorem helloImage_length : helloImage.length = 2048 := by
  simp only [helloImage, helloBootSector, helloFat, helloRootDirectory, helloData,
    List.length_append, List.length_replicate, List.length_cons, List.length_nil, text,
    List.length_map]
  rfl

set_option maxRecDepth 8000 in
theorem C5_hello_end_to_end_witness :
    2048 ≤ helloImage.length ∧
    main (fun _ => some helloImage) (text "fat") [text "test.img", text "HELLO   TXT"] 1 =
      .returns { status := 0, stdout := text "HELLO\n", stderr := [] } :=
  ⟨by rw [helloImage_length],
   (C5_hello_end_to_end (fun _ => some helloImage) (text "fat") (text "test.img") helloImage 0 1
    rfl (by rw [helloImage_length]) (by decide) (by decide) (by decide) (by decide)
    (by decide) (by decide) (by decide) (by decide) (by decide) (by decide) (by decide)
    (by decide) (by decide) (by decide)).1⟩

theorem C2_next_cluster_decoding_witness :
    ∃ s1, readFileBody tinyGlobals tinyDisk
        { ok := true, currentCluster := 3, outputBuffer := [], trace := [] } = .ok s1 ∧
      s1.currentCluster = 4 := by
  obtain ⟨s1, h1, h2, _⟩ := C2_next_cluster_decoding tinyGlobals tinyDisk
    { ok := true, currentCluster := 3, outputBuffer := [], trace := [] }
    (by decide) (by decide)
  exact ⟨s1, h1, by rw [h2]; decide⟩

/-! ## Shape of every walk -/

/-- The state after the read and the FAT load of one iteration begun in `s` with
`s.ok` set, before `currentCluster` is overwritten. -/
theorem readFileBody_cases (g : Globals) (disk : List Nat) {s : WalkState}
    (hs : s.ok = true) :
    (nextCluster g.global_Fat s.currentCluster = none ∧
      readFileBody g disk s = .error
        { ok := (readSectors g disk (clusterLba g s.currentCluster)
            g.global_BootSector.SectorsPerCluster).1
          currentCluster := s.currentCluster
          outputBuffer := s.outputBuffer ++ clusterBytes g disk s.currentCluster
          trace := s.trace ++
            [Event.sectorRead (clusterLba g s.currentCluster)
              g.global_BootSector.SectorsPerCluster
              (readSectors g disk (clusterLba g s.currentCluster)
                g.global_BootSector.SectorsPerCluster).1,
             Event.fatLoad s.currentCluster] }) ∨
    (∃ v, nextCluster g.global_Fat s.currentCluster = some v ∧
      readFileBody g disk s = .ok
        { ok := (readSectors g disk (clusterLba g s.currentCluster)
            g.global_BootSector.SectorsPerCluster).1
          currentCluster := v
          outputBuffer := s.outputBuffer ++ clusterBytes g disk s.currentCluster
          trace := s.trace ++
            [Event.sectorRead (clusterLba g s.currentCluster)
              g.global_BootSector.SectorsPerCluster
              (readSectors g disk (clusterLba g s.currentCluster)
                g.global_BootSector.SectorsPerCluster).1,
             Event.fatLoad s.currentCluster] }) := by
  cases hn : nextCluster g.global_Fat s.currentCluster with
  | none =>
    left
    refine ⟨rfl, ?_⟩
    simp [readFileBody, hs, hn, clusterBytes, readSectors_snd]
  | some v =>
    right
    exact ⟨v, rfl, readFileBody_eq disk hs hn⟩

/-- Induction over the loop: `P` holds at every loop head, `Q` of every outcome. -/
theorem readFileLoop_induct (g : Globals) (disk : List Nat) (P : WalkState → Prop)
    (Q : Walk → Prop)
    (hrun : ∀ s, P s → Q (.running s))
    (hund : ∀ s s1, P s → readFileBody g disk s = .error s1 → Q (.undefined s1))
    (hret : ∀ s s1, P s → readFileBody g disk s = .ok s1 →
      ¬ (s1.ok = true ∧ s1.currentCluster < 0x0ff8) → Q (.returns s1))
    (hstep : ∀ s s1, P s → readFileBody g disk s = .ok s1 →
      s1.ok = true → s1.currentCluster < 0x0ff8 → P s1) :
    ∀ (fuel : Nat) (s : WalkState), P s → Q (readFileLoop g disk fuel s)
  | 0, s, hp => hrun s hp
  | fuel + 1, s, hp => by
    unfold readFileLoop
    cases hb : readFileBody g disk s with
    | error s1 => exact hund s s1 hp hb
    | ok s1 =>
      by_cases hc : s1.ok = true ∧ s1.currentCluster < 0x0ff8
      · have hp1 := hstep s s1 hp hb hc.1 hc.2
        have := readFileLoop_induct g disk P Q hrun hund hret hstep fuel s1 hp1
        simpa [hc.1, hc.2] using this
      · have := hret s s1 hp hb hc
        have hc2 : ¬ (s1.ok = true ∧ s1.currentCluster < 4088) := hc
        simpa [hc2] using this

/-! ## A cluster whose FAT entry points back to itself -/

theorem readFileLoop_selfloop (g : Globals) (disk : List Nat) (c : Nat)
    (hn : nextCluster g.global_Fat c = some c) (hc : c < 0x0FF8)
    (hr : (readSectors g disk (clusterLba g c) g.global_BootSector.SectorsPerCluster).1 = true) :
    ∀ (fuel : Nat) (s : WalkState), s.ok = true → s.currentCluster = c →
      readFileLoop g disk fuel s = .running
        { ok := true
          currentCluster := c
          outputBuffer := s.outputBuffer ++ (List.replicate fuel c).flatMap (clusterBytes g disk)
          trace := s.trace ++ (List.replicate fuel c).flatMap (iterationEvents g) }
  | 0, s, hs, hcur => by
    cases s
    simp_all [readFileLoop]
  | fuel + 1, s, hs, hcur => by
    subst hcur
    have hc1 : s.currentCluster < 4088 := hc
    have ih := readFileLoop_selfloop g disk s.currentCluster hn hc hr fuel
      { ok := true
        currentCluster := s.currentCluster
        outputBuffer := s.outputBuffer ++ clusterBytes g disk s.currentCluster
        trace := s.trace ++ iterationEvents g s.currentCluster } rfl rfl
    simp only [readFileLoop, readFileBody_eq disk hs hn, hr, hc1, decide_True, Bool.and_self,
      if_true]
    simp only [iterationEvents] at ih ⊢
    rw [ih]
    simp [List.replicate_succ, List.flatMap_cons, List.append_assoc, iterationEvents]

theorem readFileLoop_read_fails (g : Globals) (disk : List Nat) (s : WalkState) (v fuel : Nat)
    (hs : s.ok = true) (hn : nextCluster g.global_Fat s.currentCluster = some v)
    (hr : (readSectors g disk (clusterLba g s.currentCluster)
      g.global_BootSector.SectorsPerCluster).1 = false) :
    readFileLoop g disk (fuel + 1) s = .returns
      { ok := false
        currentCluster := v
        outputBuffer := s.outputBuffer ++ clusterBytes g disk s.currentCluster
        trace := s.trace ++
          [Event.sectorRead (clusterLba g s.currentCluster)
            g.global_BootSector.SectorsPerCluster false,
           Event.fatLoad s.currentCluster] } := by
  simp [readFileLoop, readFileBody_eq disk hs hn, hr]

set_option maxRecDepth 8000 in
theorem loopImage_loaded : loadedGlobals loopImage = some loopGlobals := by decide

set_option maxRecDepth 8000 in
theorem loopImage_found :
    findFile loopGlobals (text "HELLO   TXT" ++ [0]) = .returns (some 0) := by decide

/-! ## A file of one cluster -/

/-- C9: for a file whose chain is the single cluster `FirstClusterLow` (its FAT entry
is an end-of-chain value) and whose `Size` is at most `SectorsPerCluster *
BytesPerSector`, with the cluster read succeeding: `readFile` returns success having
stored the whole cluster, `SectorsPerCluster * BytesPerSector` bytes, and the contents
trimmed to the declared size are exactly `Size` bytes, the first `Size` bytes of that
cluster. -/
theorem C9_one_cluster_trimmed_to_size (g : Globals) (disk : List Nat)
    (fileEntry : DirectoryEntry) (fuel : Nat) (hfuel : 0 < fuel)
    (heoc : isChain g.global_Fat [fileEntry.FirstClusterLow] = true)
    (hsize : fileEntry.Size
      ≤ g.global_BootSector.SectorsPerCluster * g.global_BootSector.BytesPerSector)
    (hread : (readSectors g disk (clusterLba g fileEntry.FirstClusterLow)
      g.global_BootSector.SectorsPerCluster).1 = true) :
    ∃ s, readFile g fileEntry disk fuel = .returns s ∧ s.ok = true ∧
      sectorReads s.trace = [(clusterLba g fileEntry.FirstClusterLow,
        g.global_BootSector.SectorsPerCluster, true)] ∧
      s.outputBuffer = clusterBytes g disk fileEntry.FirstClusterLow ∧
      s.outputBuffer.length
        = g.global_BootSector.SectorsPerCluster * g.global_BootSector.BytesPerSector ∧
      (trimmed fileEntry s.outputBuffer).length = fileEntry.Size ∧
      trimmed fileEntry s.outputBuffer
        = (clusterBytes g disk fileEntry.FirstClusterLow).take fileEntry.Size := by
  have hreads : ∀ c ∈ [fileEntry.FirstClusterLow], (readSectors g disk (clusterLba g c)
      g.global_BootSector.SectorsPerCluster).1 = true := by
    intro c hc
    have : c = fileEntry.FirstClusterLow := by simpa using hc
    rw [this]
    exact hread
  obtain ⟨v, _, hloop⟩ := readFileLoop_chain g disk [] fileEntry.FirstClusterLow fuel
    { ok := true, currentCluster := fileEntry.FirstClusterLow, outputBuffer := [], trace := [] }
    rfl rfl heoc hreads (by simpa using hfuel)
  have hlen : (clusterBytes g disk fileEntry.FirstClusterLow).length
      = g.global_BootSector.SectorsPerCluster * g.global_BootSector.BytesPerSector := by
    have := readSectors_length_of_ok hread
    rw [readSectors_snd] at this
    rw [Nat.mul_comm]
    exact this
  refine ⟨_, hloop, rfl, ?_, by simp, by simpa using hlen, ?_, by simp [trimmed]⟩
  · simp [iterationEvents, sectorReads]
  · simp only [trimmed, List.nil_append, List.flatMap_cons, List.flatMap_nil, List.append_nil,
      List.length_take, hlen]
    omega

set_option maxRecDepth 8000 in
theorem C9_one_cluster_trimmed_to_size_witness :
    (directoryEntryAt helloRootDirectory 0).Size ≤ 1 * 512 ∧
    ∃ s, readFile helloGlobals (directoryEntryAt helloRootDirectory 0) helloImage 1
        = .returns s ∧ s.ok = true ∧ s.outputBuffer.length = 512 ∧
      trimmed (directoryEntryAt helloRootDirectory 0) s.outputBuffer = text "HELLO" := by
  refine ⟨by decide, ?_⟩
  obtain ⟨s, h1, h2, _, h4, h5, _, h7⟩ :=
    C9_one_cluster_trimmed_to_size helloGlobals helloImage
      (directoryEntryAt helloRootDirectory 0) 1 (by decide) (by decide) (by decide) (by decide)
  exact ⟨s, h1, h2, h5, by rw [h7]; decide⟩

/-! ## Facts about every walk -/

theorem readFileBody_trace (g : Globals) (disk : List Nat) (s : WalkState) :
    (∀ s1, readFileBody g disk s = .ok s1 → ∃ t, s1.trace = s.trace ++ t) ∧
    (∀ s1, readFileBody g disk s = .error s1 → ∃ t, s1.trace = s.trace ++ t) := by
  unfold readFileBody
  cases hn : nextCluster g.global_Fat s.currentCluster <;> cases hs : s.ok <;>
    simp only [hs, if_true, if_false, Bool.false_eq_true] <;>
    constructor <;> intro s1 h1 <;> simp at h1 <;> subst h1 <;> simp [List.append_assoc]

theorem readFileLoop_trace_extends (g : Globals) (disk : List Nat) (T : List Event) :
    ∀ (fuel : Nat) (s : WalkState), (∃ t, s.trace = T ++ t) →
      ∃ t, (readFileLoop g disk fuel s).state.trace = T ++ t := by
  apply readFileLoop_induct g disk (fun s => ∃ t, s.trace = T ++ t)
    (fun out => ∃ t, out.state.trace = T ++ t)
  · intro s hp
    exact hp
  · intro s s1 ⟨t, ht⟩ hb
    obtain ⟨t1, h1⟩ := (readFileBody_trace g disk s).2 s1 hb
    exact ⟨t ++ t1, by simp [Walk.state, h1, ht, List.append_assoc]⟩
  · intro s s1 ⟨t, ht⟩ hb _
    obtain ⟨t1, h1⟩ := (readFileBody_trace g disk s).1 s1 hb
    exact ⟨t ++ t1, by simp [Walk.state, h1, ht, List.append_assoc]⟩
  · intro s s1 ⟨t, ht⟩ hb _ _
    obtain ⟨t1, h1⟩ := (readFileBody_trace g disk s).1 s1 hb
    exact ⟨t ++ t1, by simp [h1, ht, List.append_assoc]⟩

/-- Whatever the directory entry says, a walk of at least one iteration begins with
the read of the current cluster and the load of its FAT entry. -/
theorem readFileLoop_first_iteration (g : Globals) (disk : List Nat) (fuel : Nat)
    (s : WalkState) (hs : s.ok = true) :
    ∃ t, (readFileLoop g disk (fuel + 1) s).state.trace =
      (s.trace ++
        [Event.sectorRead (clusterLba g s.currentCluster)
          g.global_BootSector.SectorsPerCluster
          (readSectors g disk (clusterLba g s.currentCluster)
            g.global_BootSector.SectorsPerCluster).1,
         Event.fatLoad s.currentCluster]) ++ t := by
  unfold readFileLoop
  rcases readFileBody_cases g disk hs with ⟨_, hb⟩ | ⟨v, _, hb⟩
  · rw [hb]
    exact ⟨[], by simp [Walk.state]⟩
  · rw [hb]
    simp only []
    split
    · exact readFileLoop_trace_extends g disk _ fuel _ ⟨[], by simp⟩
    · exact ⟨[], by simp [Walk.state]⟩

theorem nextCluster_eq_none_iff (fat : List Nat) (c : Nat) :
    nextCluster fat c = none ↔ ¬ fatIndex c + 1 < fat.length := by
  constructor
  · intro h hin
    simp only [nextCluster, fatWord_eq_some hin] at h
    split at h <;> simp at h
  · intro h
    simp [nextCluster, fatWord_eq_none h]

/-! ## Files of declared size 0 -/

theorem fatLoads_snoc_iteration (t : List Event) (lba n c : Nat) (b : Bool) :
    fatLoads (t ++ [Event.sectorRead lba n b, Event.fatLoad c]) = fatLoads t ++ [c] := by
  rw [fatLoads_append]
  rfl

theorem sectorReads_snoc_iteration (t : List Event) (lba n c : Nat) (b : Bool) :
    sectorReads (t ++ [Event.sectorRead lba n b, Event.fatLoad c])
      = sectorReads t ++ [(lba, n, b)] := by
  rw [sectorReads_append]
  rfl

theorem readFileLoop_fat_loads (g : Globals) (disk : List Nat) (first : Nat) :
    ∀ (fuel : Nat) (s : WalkState),
      (s.ok = true ∧ (s.currentCluster = first ∨ s.currentCluster < 0x0FF8) ∧
        ∀ c ∈ fatLoads s.trace,
          (c = first ∨ c < 0x0FF8) ∧ fatIndex c + 1 < g.global_Fat.length) →
      (∀ c ∈ fatLoads (readFileLoop g disk fuel s).state.trace, c = first ∨ c < 0x0FF8) ∧
      ((∃ s1, readFileLoop g disk fuel s = .undefined s1) ↔
        ∃ c ∈ fatLoads (readFileLoop g disk fuel s).state.trace,
          ¬ fatIndex c + 1 < g.global_Fat.length) := by
  apply readFileLoop_induct g disk
    (fun s => s.ok = true ∧ (s.currentCluster = first ∨ s.currentCluster < 0x0FF8) ∧
        ∀ c ∈ fatLoads s.trace,
          (c = first ∨ c < 0x0FF8) ∧ fatIndex c + 1 < g.global_Fat.length)
    (fun out => (∀ c ∈ fatLoads out.state.trace, c = first ∨ c < 0x0FF8) ∧
      ((∃ s1, out = .undefined s1) ↔
        ∃ c ∈ fatLoads out.state.trace, ¬ fatIndex c + 1 < g.global_Fat.length))
  · rintro s ⟨_, _, hall⟩
    refine ⟨fun c hc => (hall c hc).1, ?_⟩
    constructor
    · rintro ⟨s1, h⟩
      cases h
    · rintro ⟨c, hc, hout⟩
      exact absurd (hall c hc).2 hout
  · rintro s s1 ⟨hs, hcur, hall⟩ hb
    rcases readFileBody_cases g disk hs with ⟨hn, hb1⟩ | ⟨v, _, hb1⟩
    · rw [hb1] at hb
      injection hb with hb
      subst hb
      simp only [Walk.state, fatLoads_snoc_iteration]
      constructor
      · intro c hc
        rcases List.mem_append.1 hc with h | h
        · exact (hall c h).1
        · have : c = s.currentCluster := by simpa using h
          rw [this]
          exact hcur
      · constructor
        · intro _
          exact ⟨s.currentCluster, by simp, (nextCluster_eq_none_iff _ _).1 hn⟩
        · intro _
          exact ⟨_, rfl⟩
    · rw [hb1] at hb
      cases hb
  · rintro s s1 ⟨hs, hcur, hall⟩ hb _
    rcases readFileBody_cases g disk hs with ⟨_, hb1⟩ | ⟨v, hn, hb1⟩
    · rw [hb1] at hb
      cases hb
    · rw [hb1] at hb
      injection hb with hb
      subst hb
      simp only [Walk.state, fatLoads_snoc_iteration]
      have hall1 : ∀ c ∈ fatLoads s.trace ++ [s.currentCluster],
          (c = first ∨ c < 0x0FF8) ∧ fatIndex c + 1 < g.global_Fat.length := by
        intro c hc
        rcases List.mem_append.1 hc with h | h
        · exact hall c h
        · have : c = s.currentCluster := by simpa using h
          rw [this]
          exact ⟨hcur, nextCluster_some_inside hn⟩
      refine ⟨fun c hc => (hall1 c hc).1, ?_⟩
      constructor
      · rintro ⟨s1, h⟩
        cases h
      · rintro ⟨c, hc, hout⟩
        exact absurd (hall1 c hc).2 hout
  · rintro s s1 ⟨hs, hcur, hall⟩ hb hok hlt
    rcases readFileBody_cases g disk hs with ⟨_, hb1⟩ | ⟨v, hn, hb1⟩
    · rw [hb1] at hb
      cases hb
    · rw [hb1] at hb
      injection hb with hb
      subst hb
      refine ⟨hok, Or.inr hlt, ?_⟩
      simp only [fatLoads_snoc_iteration]
      intro c hc
      rcases List.mem_append.1 hc with h | h
      · exact hall c h
      · have : c = s.currentCluster := by simpa using h
        rw [this]
        exact ⟨hcur, nextCluster_some_inside hn⟩

/-- C7 (as the code behaves): `readFile` compares no cluster index with the length of
the table.  The clusters whose FAT entry it loads are `FirstClusterLow`, always and
whatever its value, and decoded values below `0x0FF8`; a load whose two bytes at
offset `floor(cluster*3/2)` are not both inside `global_Fat` is performed all the
same, and the run is undefined exactly when such a load occurs. -/
theorem C7_fat_loads_are_not_range_checked (g : Globals) (disk : List Nat)
    (fileEntry : DirectoryEntry) (fuel : Nat) :
    (0 < fuel →
      (fatLoads (readFile g fileEntry disk fuel).state.trace).head?
        = some fileEntry.FirstClusterLow) ∧
    (∀ c ∈ fatLoads (readFile g fileEntry disk fuel).state.trace,
      c = fileEntry.FirstClusterLow ∨ c < 0x0FF8) ∧
    ((∃ s, readFile g fileEntry disk fuel = .undefined s) ↔
      ∃ c ∈ fatLoads (readFile g fileEntry disk fuel).state.trace,
        ¬ fatIndex c + 1 < g.global_Fat.length) ∧
    (∀ c, c < g.global_Fat.length * 2 / 3 → fatIndex c + 1 < g.global_Fat.length) := by
  have h := readFileLoop_fat_loads g disk fileEntry.FirstClusterLow fuel
    { ok := true, currentCluster := fileEntry.FirstClusterLow, outputBuffer := [], trace := [] }
    ⟨rfl, Or.inl rfl, by simp [fatLoads]⟩
  refine ⟨?_, h.1, h.2, fun c hc => by unfold fatIndex; omega⟩
  intro hfuel
  obtain ⟨f, rfl⟩ : ∃ f, fuel = f + 1 := ⟨fuel - 1, by omega⟩
  obtain ⟨t, ht⟩ := readFileLoop_first_iteration g disk f
    { ok := true, currentCluster := fileEntry.FirstClusterLow, outputBuffer := [],
      trace := [] } rfl
  unfold readFile
  rw [ht]
  simp [fatLoads]

set_option maxRecDepth 8000 in
/-- C7 fails on the code: on the image whose FAT entry of cluster 2 is `0x400`, with a
table of `1 * 512` bytes (so `512 * 2 / 3 = 341`), `readFile` loads the FAT entry of
cluster 1024 at byte offset 1536, outside the table, instead of rejecting it. -/
theorem C7_stray_cluster_is_loaded :
    loadedGlobals strayImage = some strayGlobals ∧
    findFile strayGlobals (text "HELLO   TXT" ++ [0]) = .returns (some 0) ∧
    strayGlobals.global_Fat.length
      = strayGlobals.global_BootSector.SectorsPerFat
        * strayGlobals.global_BootSector.BytesPerSector ∧
    ¬ (1024 < strayGlobals.global_Fat.length * 2 / 3) ∧
    fatIndex 1024 = 1536 ∧
    ∃ s, readFile strayGlobals (directoryEntryAt strayGlobals.global_RootDirectory 0)
        strayImage 2 = .undefined s ∧
      fatLoads s.trace = [2, 1024] := by
  have hlen : strayGlobals.global_Fat.length = 512 := by
    simp [strayGlobals, strayFat]
  refine ⟨by decide, by decide, by rw [hlen]; decide, by rw [hlen]; decide, by decide, ?_⟩
  refine ⟨(readFile strayGlobals (directoryEntryAt strayGlobals.global_RootDirectory 0)
    strayImage 2).state, by decide, by decide⟩

/-! ## Failure of a cluster read -/

theorem readFileLoop_failed_read (g : Globals) (disk : List Nat) :
    ∀ (fuel : Nat) (s : WalkState),
      (s.ok = true ∧ ∀ r ∈ sectorReads s.trace, r.2.2 = true) →
      ((readFileLoop g disk fuel s).state.ok = true ∧
        ∀ r ∈ sectorReads (readFileLoop g disk fuel s).state.trace, r.2.2 = true) ∨
      ((readFileLoop g disk fuel s).state.ok = false ∧
        (∃ pre lba n c, (readFileLoop g disk fuel s).state.trace
            = pre ++ [Event.sectorRead lba n false, Event.fatLoad c] ∧
          ∀ r ∈ sectorReads pre, r.2.2 = true) ∧
        ((∃ s1, readFileLoop g disk fuel s = .returns s1) ∨
          (∃ s1, readFileLoop g disk fuel s = .undefined s1))) := by
  apply readFileLoop_induct g disk
    (fun s => s.ok = true ∧ ∀ r ∈ sectorReads s.trace, r.2.2 = true)
    (fun out => (out.state.ok = true ∧ ∀ r ∈ sectorReads out.state.trace, r.2.2 = true) ∨
      (out.state.ok = false ∧
        (∃ pre lba n c, out.state.trace
            = pre ++ [Event.sectorRead lba n false, Event.fatLoad c] ∧
          ∀ r ∈ sectorReads pre, r.2.2 = true) ∧
        ((∃ s1, out = .returns s1) ∨ (∃ s1, out = .undefined s1))))
  · rintro s ⟨hs, hall⟩
    exact Or.inl ⟨hs, hall⟩
  · rintro s s1 ⟨hs, hall⟩ hb
    rcases readFileBody_cases g disk hs with ⟨_, hb1⟩ | ⟨v, _, hb1⟩
    · rw [hb1] at hb
      injection hb with hb
      subst hb
      cases hr : (readSectors g disk (clusterLba g s.currentCluster)
          g.global_BootSector.SectorsPerCluster).1 with
      | true =>
        left
        refine ⟨by simp [Walk.state], ?_⟩
        simp only [Walk.state, sectorReads_snoc_iteration]
        intro r hmem
        rcases List.mem_append.1 hmem with h | h
        · exact hall r h
        · rw [List.mem_singleton.1 h]
      | false =>
        right
        exact ⟨by simp [Walk.state], ⟨s.trace, _, _, _, rfl, hall⟩, Or.inr ⟨_, rfl⟩⟩
    · rw [hb1] at hb
      cases hb
  · rintro s s1 ⟨hs, hall⟩ hb _
    rcases readFileBody_cases g disk hs with ⟨_, hb1⟩ | ⟨v, _, hb1⟩
    · rw [hb1] at hb
      cases hb
    · rw [hb1] at hb
      injection hb with hb
      subst hb
      cases hr : (readSectors g disk (clusterLba g s.currentCluster)
          g.global_BootSector.SectorsPerCluster).1 with
      | true =>
        left
        refine ⟨by simp [Walk.state], ?_⟩
        simp only [Walk.state, sectorReads_snoc_iteration]
        intro r hmem
        rcases List.mem_append.1 hmem with h | h
        · exact hall r h
        · rw [List.mem_singleton.1 h]
      | false =>
        right
        exact ⟨by simp [Walk.state], ⟨s.trace, _, _, _, rfl, hall⟩, Or.inl ⟨_, rfl⟩⟩
  · rintro s s1 ⟨hs, hall⟩ hb hok _
    rcases readFileBody_cases g disk hs with ⟨_, hb1⟩ | ⟨v, _, hb1⟩
    · rw [hb1] at hb
      cases hb
    · rw [hb1] at hb
      injection hb with hb
      subst hb
      refine ⟨hok, ?_⟩
      simp only [sectorReads_snoc_iteration]
      intro r hmem
      rcases List.mem_append.1 hmem with h | h
      · exact hall r h
      · rw [List.mem_singleton.1 h]
        exact hok

/-- C10: for every walk, `readFile` ends with its status cleared exactly when a
cluster read it issued was short or failed; that read is then the last read issued
(all earlier ones succeeded, only the FAT load of the same iteration follows it) and
the walk is over; and when `readFile` returns failure the top level prints nothing to
standard output, reports that the file could not be read and returns -5 (provided the
bytes stored before the failure did not already overrun the buffer). -/
theorem C10_failure_iff_a_read_failed (g : Globals) (disk : List Nat)
    (fileEntry : DirectoryEntry) (fuel : Nat) :
    ((readFile g fileEntry disk fuel).state.ok = false ↔
      ∃ r ∈ sectorReads (readFile g fileEntry disk fuel).state.trace, r.2.2 = false) ∧
    ((readFile g fileEntry disk fuel).state.ok = false →
      (∃ pre lba n c, (readFile g fileEntry disk fuel).state.trace
          = pre ++ [Event.sectorRead lba n false, Event.fatLoad c] ∧
        ∀ r ∈ sectorReads pre, r.2.2 = true) ∧
      ((∃ s, readFile g fileEntry disk fuel = .returns s) ∨
        (∃ s, readFile g fileEntry disk fuel = .undefined s))) ∧
    (∀ (argv2 : List Nat) (i : Nat) (s : WalkState),
      fileEntry = directoryEntryAt g.global_RootDirectory i →
      readFile g fileEntry disk fuel = .returns s → s.ok = false →
      mainReadAndPrint g disk argv2 i fuel =
        if bufferLength g fileEntry < s.outputBuffer.length then .undefined .bufferOverflow
        else .returns { status := -5, stdout := [],
                        stderr := text "Could not read File " ++ argv2 ++ text "!\n" }) := by
  have key := readFileLoop_failed_read g disk fuel
    { ok := true, currentCluster := fileEntry.FirstClusterLow, outputBuffer := [], trace := [] }
    ⟨rfl, by simp [sectorReads]⟩
  change (_ ∨ _) at key
  refine ⟨?_, ?_, ?_⟩
  · unfold readFile
    rcases key with ⟨hok, hall⟩ | ⟨hok, ⟨pre, lba, n, c, htr, _⟩, _⟩
    · constructor
      · intro h
        rw [hok] at h
        cases h
      · rintro ⟨r, hr, hf⟩
        rw [hall r hr] at hf
        cases hf
    · constructor
      · intro _
        refine ⟨(lba, n, false), ?_, rfl⟩
        rw [htr, sectorReads_snoc_iteration]
        simp
      · intro _
        exact hok
  · unfold readFile
    intro hfalse
    rcases key with ⟨hok, _⟩ | ⟨_, h2, h3⟩
    · rw [hok] at hfalse
      cases hfalse
    · exact ⟨h2, h3⟩
  · intro argv2 i s he hret hok
    subst he
    simp [mainReadAndPrint, hret, hok]

/-! ## How many bytes a walk stores -/

theorem clusterBytes_length_of_ok {g : Globals} {disk : List Nat} {c : Nat}
    (h : (readSectors g disk (clusterLba g c) g.global_BootSector.SectorsPerCluster).1 = true) :
    (clusterBytes g disk c).length
      = g.global_BootSector.BytesPerSector * g.global_BootSector.SectorsPerCluster := by
  have := readSectors_length_of_ok h
  rwa [readSectors_snd] at this

theorem readFileLoop_stored_length (g : Globals) (disk : List Nat) :
    ∀ (fuel : Nat) (s : WalkState),
      (s.ok = true ∧ s.outputBuffer.length = (sectorReads s.trace).length
        * (g.global_BootSector.BytesPerSector * g.global_BootSector.SectorsPerCluster)) →
      ((readFileLoop g disk fuel s).state.ok = true →
        (readFileLoop g disk fuel s).state.outputBuffer.length
          = (sectorReads (readFileLoop g disk fuel s).state.trace).length
            * (g.global_BootSector.BytesPerSector * g.global_BootSector.SectorsPerCluster)) := by
  apply readFileLoop_induct g disk
    (fun s => s.ok = true ∧ s.outputBuffer.length = (sectorReads s.trace).length
        * (g.global_BootSector.BytesPerSector * g.global_BootSector.SectorsPerCluster))
    (fun out => out.state.ok = true →
        out.state.outputBuffer.length = (sectorReads out.state.trace).length
          * (g.global_BootSector.BytesPerSector * g.global_BootSector.SectorsPerCluster))
  · rintro s ⟨_, hl⟩ _
    exact hl
  · rintro s s1 ⟨hs, hl⟩ hb
    rcases readFileBody_cases g disk hs with ⟨_, hb1⟩ | ⟨v, _, hb1⟩
    · rw [hb1] at hb
      injection hb with hb
      subst hb
      intro hok
      simp only [Walk.state] at hok ⊢
      rw [sectorReads_snoc_iteration, List.length_append, List.length_append, hl,
        clusterBytes_length_of_ok hok]
      simp [Nat.add_mul]
    · rw [hb1] at hb
      cases hb
  · rintro s s1 ⟨hs, hl⟩ hb _
    rcases readFileBody_cases g disk hs with ⟨_, hb1⟩ | ⟨v, _, hb1⟩
    · rw [hb1] at hb
      cases hb
    · rw [hb1] at hb
      injection hb with hb
      subst hb
      intro hok
      simp only [Walk.state] at hok ⊢
      rw [sectorReads_snoc_iteration, List.length_append, List.length_append, hl,
        clusterBytes_length_of_ok hok]
      simp [Nat.add_mul]
  · rintro s s1 ⟨hs, hl⟩ hb hok _
    rcases readFileBody_cases g disk hs with ⟨_, hb1⟩ | ⟨v, _, hb1⟩
    · rw [hb1] at hb
      cases hb
    · rw [hb1] at hb
      injection hb with hb
      subst hb
      refine ⟨hok, ?_⟩
      simp only at hok ⊢
      rw [sectorReads_snoc_iteration, List.length_append, List.length_append, hl,
        clusterBytes_length_of_ok hok]
      simp [Nat.add_mul]

theorem readFile_stored_length (g : Globals) (disk : List Nat) (fileEntry : DirectoryEntry)
    (fuel : Nat) (h : (readFile g fileEntry disk fuel).state.ok = true) :
    (readFile g fileEntry disk fuel).state.outputBuffer.length
      = (sectorReads (readFile g fileEntry disk fuel).state.trace).length
        * (g.global_BootSector.BytesPerSector * g.global_BootSector.SectorsPerCluster) :=
  readFileLoop_stored_length g disk fuel
    { ok := true, currentCluster := fileEntry.FirstClusterLow, outputBuffer := [], trace := [] }
    ⟨rfl, by simp [sectorReads]⟩ h

/-- C11 (as the code behaves): on every run on which `readFile` succeeds, the byte
sequence it produces is exactly (clusters read) times `SectorsPerCluster *
BytesPerSector` bytes long.  `Size` is not consulted: the same walk with the same
result is made for an entry with any other `Size`, so the sequence is at least `Size`
bytes long only when the chain is that long. -/
theorem C11_length_is_clusters_read_times_cluster_size (g : Globals) (disk : List Nat)
    (fileEntry : DirectoryEntry) (fuel : Nat) (s : WalkState)
    (hret : readFile g fileEntry disk fuel = .returns s) (hok : s.ok = true) :
    s.outputBuffer.length = (sectorReads s.trace).length
      * (g.global_BootSector.SectorsPerCluster * g.global_BootSector.BytesPerSector) ∧
    (∀ size, readFile g { fileEntry with Size := size } disk fuel = .returns s) ∧
    (fileEntry.Size ≤ s.outputBuffer.length ↔
      fileEntry.Size ≤ (sectorReads s.trace).length
        * (g.global_BootSector.SectorsPerCluster * g.global_BootSector.BytesPerSector)) := by
  have h := readFile_stored_length g disk fileEntry fuel (by rw [hret]; exact hok)
  rw [hret] at h
  simp only [Walk.state] at h
  rw [Nat.mul_comm g.global_BootSector.BytesPerSector] at h
  exact ⟨h, fun _ => hret, by rw [h]⟩

set_option maxRecDepth 8000 in
theorem C11_length_is_clusters_read_times_cluster_size_witness :
    (readFile helloGlobals (directoryEntryAt helloRootDirectory 0) helloImage 1).state.ok
      = true ∧
    (readFile helloGlobals (directoryEntryAt helloRootDirectory 0)
      helloImage 1).state.outputBuffer.length = 1 * (1 * 512) :=
  ⟨by decide,
   (C11_length_is_clusters_read_times_cluster_size helloGlobals helloImage
      (directoryEntryAt helloRootDirectory 0) 1
      (readFile helloGlobals (directoryEntryAt helloRootDirectory 0) helloImage 1).state
      (by decide) (by decide)).1.trans (by decide)⟩

set_option maxRecDepth 8000 in
/-- C11 fails on the code: on the image whose entry HELLO.TXT declares 1000 bytes
while its chain is the single cluster 2, `readFile` succeeds and produces 512 bytes. -/
theorem C11_declared_size_exceeds_chain :
    loadedGlobals longImage = some longGlobals ∧
    findFile longGlobals (text "HELLO   TXT" ++ [0]) = .returns (some 0) ∧
    (directoryEntryAt longGlobals.global_RootDirectory 0).Size = 1000 ∧
    ∃ s, readFile longGlobals (directoryEntryAt longGlobals.global_RootDirectory 0)
        longImage 1 = .returns s ∧ s.ok = true ∧ s.outputBuffer.length = 512 :=
  ⟨by decide, by decide, by decide,
   (readFile longGlobals (directoryEntryAt longGlobals.global_RootDirectory 0)
      longImage 1).state, by decide, by decide, by decide⟩

set_option maxRecDepth 8000 in
/-- C19, the code at a well-formed volume with two sectors per cluster: for the 5-byte
file HELLO.TXT in the single cluster 2, `main` allocates `5 + 512 = 517` bytes and
`readFile` stores the whole cluster, 1024 bytes, into it. -/
theorem C19_cluster_overruns_buffer :
    loadedGlobals pairImage = some pairGlobals ∧
    findFile pairGlobals (text "HELLO   TXT" ++ [0]) = .returns (some 0) ∧
    bufferLength pairGlobals (directoryEntryAt pairGlobals.global_RootDirectory 0) = 517 ∧
    (∃ s, readFile pairGlobals (directoryEntryAt pairGlobals.global_RootDirectory 0)
        pairImage 1 = .returns s ∧ s.ok = true ∧
      sectorReads s.trace = [(3, 2, true)] ∧ s.outputBuffer.length = 1024) ∧
    mainOnDisk pairImage (text "HELLO   TXT") 1 = .undefined .bufferOverflow :=
  ⟨by decide, by decide, by decide,
   ⟨(readFile pairGlobals (directoryEntryAt pairGlobals.global_RootDirectory 0)
      pairImage 1).state, by decide, by decide, by decide, by decide⟩,
   by decide⟩

/-! ## End-of-chain values and reserved values -/

theorem readFileLoop_end_of_chain (g : Globals) (disk : List Nat) :
    ∀ (fuel : Nat) (s : WalkState),
      (s.ok = true ∧ ∀ c ∈ fatLoads s.trace,
        ∃ v, nextCluster g.global_Fat c = some v ∧ v < 0x0FF8) →
      ∀ c v, c ∈ fatLoads (readFileLoop g disk fuel s).state.trace →
        nextCluster g.global_Fat c = some v → 0x0FF8 ≤ v →
        readFileLoop g disk fuel s = .returns (readFileLoop g disk fuel s).state ∧
        (readFileLoop g disk fuel s).state.currentCluster = v ∧
        ∃ pre lba n b, (readFileLoop g disk fuel s).state.trace
            = pre ++ [Event.sectorRead lba n b, Event.fatLoad c] ∧
          c ∉ fatLoads pre := by
  apply readFileLoop_induct g disk
    (fun s => s.ok = true ∧ ∀ c ∈ fatLoads s.trace,
        ∃ v, nextCluster g.global_Fat c = some v ∧ v < 0x0FF8)
    (fun out => ∀ c v, c ∈ fatLoads out.state.trace →
        nextCluster g.global_Fat c = some v → 0x0FF8 ≤ v →
        out = .returns out.state ∧ out.state.currentCluster = v ∧
        ∃ pre lba n b, out.state.trace
            = pre ++ [Event.sectorRead lba n b, Event.fatLoad c] ∧
          c ∉ fatLoads pre)
  · rintro s ⟨_, hall⟩ c v hc hv h8
    obtain ⟨w, hw, hlt⟩ := hall c hc
    rw [hv] at hw
    injection hw with hw
    omega
  · rintro s s1 ⟨hs, hall⟩ hb c v hc hv h8
    rcases readFileBody_cases g disk hs with ⟨hn, hb1⟩ | ⟨w, _, hb1⟩
    · rw [hb1] at hb
      injection hb with hb
      subst hb
      simp only [Walk.state, fatLoads_snoc_iteration] at hc
      rcases List.mem_append.1 hc with h | h
      · obtain ⟨w, hw, hlt⟩ := hall c h
        rw [hv] at hw
        injection hw with hw
        omega
      · rw [List.mem_singleton.1 h, hn] at hv
        cases hv
    · rw [hb1] at hb
      cases hb
  · rintro s s1 ⟨hs, hall⟩ hb _ c v hc hv h8
    rcases readFileBody_cases g disk hs with ⟨_, hb1⟩ | ⟨w, hn, hb1⟩
    · rw [hb1] at hb
      cases hb
    · rw [hb1] at hb
      injection hb with hb
      subst hb
      simp only [Walk.state, fatLoads_snoc_iteration] at hc ⊢
      rcases List.mem_append.1 hc with h | h
      · obtain ⟨w, hw, hlt⟩ := hall c h
        rw [hv] at hw
        injection hw with hw
        omega
      · have hcc : c = s.currentCluster := List.mem_singleton.1 h
        subst hcc
        rw [hn] at hv
        injection hv with hv
        refine ⟨trivial, hv, s.trace, _, _, _, rfl, ?_⟩
        intro hmem
        obtain ⟨w2, hw2, hlt⟩ := hall _ hmem
        rw [hn] at hw2
        injection hw2 with hw2
        omega
  · rintro s s1 ⟨hs, hall⟩ hb hok hlt
    rcases readFileBody_cases g disk hs with ⟨_, hb1⟩ | ⟨w, hn, hb1⟩
    · rw [hb1] at hb
      cases hb
    · rw [hb1] at hb
      injection hb with hb
      subst hb
      refine ⟨hok, ?_⟩
      simp only [fatLoads_snoc_iteration]
      intro c hc
      rcases List.mem_append.1 hc with h | h
      · exact hall c h
      · rw [List.mem_singleton.1 h]
        exact ⟨w, hn, hlt⟩

/-- C13: in every chain walk, when the FAT entry decoded for the current cluster `c`
is an end-of-chain value (`0x0FF8` or more, so in `0x0FF8..0x0FFF`), the traversal
halts there: `readFile` returns, the FAT load for `c` is the last event of the walk
(no sector read and no FAT load follows it), and it is the only load for `c`.  At
every loop head with such an entry the loop returns after that one iteration. -/
theorem C13_end_of_chain_value_halts (g : Globals) (disk : List Nat)
    (fileEntry : DirectoryEntry) (fuel c v : Nat)
    (hc : c ∈ fatLoads (readFile g fileEntry disk fuel).state.trace)
    (hv : nextCluster g.global_Fat c = some v) (h8 : 0x0FF8 ≤ v) :
    (∃ s, readFile g fileEntry disk fuel = .returns s ∧ s.currentCluster = v ∧
      ∃ pre lba n b, s.trace = pre ++ [Event.sectorRead lba n b, Event.fatLoad c] ∧
        c ∉ fatLoads pre) ∧
    (∀ (s0 : WalkState) (fuel0 : Nat), s0.ok = true → s0.currentCluster = c →
      ∃ s1, readFileLoop g disk (fuel0 + 1) s0 = .returns s1 ∧
        s1.trace = s0.trace ++
          [Event.sectorRead (clusterLba g c) g.global_BootSector.SectorsPerCluster s1.ok,
           Event.fatLoad c]) := by
  constructor
  · obtain ⟨h1, h2, h3⟩ := readFileLoop_end_of_chain g disk fuel
      { ok := true, currentCluster := fileEntry.FirstClusterLow, outputBuffer := [],
        trace := [] } ⟨rfl, by simp [fatLoads]⟩ c v hc hv h8
    exact ⟨_, h1, h2, h3⟩
  · intro s0 fuel0 hs0 hc0
    subst hc0
    have hnot : ¬ v < 4088 := by omega
    refine ⟨{ ok := (readSectors g disk (clusterLba g s0.currentCluster)
                g.global_BootSector.SectorsPerCluster).1
              currentCluster := v
              outputBuffer := s0.outputBuffer ++ clusterBytes g disk s0.currentCluster
              trace := s0.trace ++
                [Event.sectorRead (clusterLba g s0.currentCluster)
                  g.global_BootSector.SectorsPerCluster
                  (readSectors g disk (clusterLba g s0.currentCluster)
                    g.global_BootSector.SectorsPerCluster).1,
                 Event.fatLoad s0.currentCluster] }, ?_, rfl⟩
    simp [readFileLoop, readFileBody_eq disk hs0 hv, hnot]

set_option maxRecDepth 8000 in
theorem C13_end_of_chain_value_halts_witness :
    nextCluster helloGlobals.global_Fat 2 = some 0xFFF ∧
    ∃ s, readFile helloGlobals (directoryEntryAt helloRootDirectory 0) helloImage 5
        = .returns s ∧ s.currentCluster = 0xFFF ∧
      ∃ pre lba n b, s.trace = pre ++ [Event.sectorRead lba n b, Event.fatLoad 2] ∧
        2 ∉ fatLoads pre :=
  ⟨by decide,
   (C13_end_of_chain_value_halts helloGlobals helloImage
      (directoryEntryAt helloRootDirectory 0) 5 2 0xFFF (by decide) (by decide)
      (by decide)).1⟩

/-- C14 (as the code behaves): a decoded value below `0x0FF8`, in particular a
reserved value in `0x0FF0..0x0FF7` such as the bad-cluster mark, is not treated as end
of chain.  When the read of the current cluster succeeded and its FAT entry decodes
to such a value `v`, the walk goes on and its next actions are the read of the data
cluster numbered `v` and the load of the FAT entry of `v`. -/
theorem C14_reserved_value_is_followed (g : Globals) (disk : List Nat) (s : WalkState)
    (v fuel : Nat) (hs : s.ok = true)
    (hv : nextCluster g.global_Fat s.currentCluster = some v) (hlt : v < 0x0FF8)
    (hr : (readSectors g disk (clusterLba g s.currentCluster)
      g.global_BootSector.SectorsPerCluster).1 = true) :
    ∃ t, (readFileLoop g disk (fuel + 2) s).state.trace =
      s.trace ++
        [Event.sectorRead (clusterLba g s.currentCluster)
          g.global_BootSector.SectorsPerCluster true,
         Event.fatLoad s.currentCluster,
         Event.sectorRead (clusterLba g v) g.global_BootSector.SectorsPerCluster
          (readSectors g disk (clusterLba g v) g.global_BootSector.SectorsPerCluster).1,
         Event.fatLoad v] ++ t := by
  have hlt1 : v < 4088 := hlt
  obtain ⟨t, ht⟩ := readFileLoop_first_iteration g disk fuel
    { ok := true
      currentCluster := v
      outputBuffer := s.outputBuffer ++ clusterBytes g disk s.currentCluster
      trace := s.trace ++
        [Event.sectorRead (clusterLba g s.currentCluster)
          g.global_BootSector.SectorsPerCluster true,
         Event.fatLoad s.currentCluster] } rfl
  refine ⟨t, ?_⟩
  have hstep : readFileLoop g disk (fuel + 2) s = readFileLoop g disk (fuel + 1)
      { ok := true
        currentCluster := v
        outputBuffer := s.outputBuffer ++ clusterBytes g disk s.currentCluster
        trace := s.trace ++
          [Event.sectorRead (clusterLba g s.currentCluster)
            g.global_BootSector.SectorsPerCluster true,
           Event.fatLoad s.currentCluster] } := by
    rw [readFileLoop, readFileBody_eq disk hs hv]
    simp [hr, hlt1]
  rw [hstep, ht]
  simp [List.append_assoc]

set_option maxRecDepth 8000 in
theorem C14_reserved_value_is_followed_witness :
    nextCluster badGlobals.global_Fat 2 = some 0xFF7 ∧
    ∃ t, (readFileLoop badGlobals badImage 2
        { ok := true, currentCluster := 2, outputBuffer := [], trace := [] }).state.trace =
      [] ++ [Event.sectorRead 3 1 true, Event.fatLoad 2,
             Event.sectorRead 4088 1 false, Event.fatLoad 0xFF7] ++ t :=
  ⟨by decide,
   C14_reserved_value_is_followed badGlobals badImage
     { ok := true, currentCluster := 2, outputBuffer := [], trace := [] } 0xFF7 0 rfl
     (by decide) (by decide) (by decide)⟩

set_option maxRecDepth 8000 in
/-- C14 fails on the code: on the image whose FAT entry of cluster 2 is the
bad-cluster mark `0xFF7`, after reading cluster 2 `readFile` does not halt but issues a
read of cluster `0xFF7`, one sector at LBA `3 + (0xFF7 - 2) = 4088`. -/
theorem C14_bad_cluster_mark_is_read :
    loadedGlobals badImage = some badGlobals ∧
    findFile badGlobals (text "HELLO   TXT" ++ [0]) = .returns (some 0) ∧
    nextCluster badGlobals.global_Fat 2 = some 0xFF7 ∧
    clusterLba badGlobals 0xFF7 = 4088 ∧
    (readFile badGlobals (directoryEntryAt badGlobals.global_RootDirectory 0)
        badImage 2).state.trace =
      [Event.sectorRead 3 1 true, Event.fatLoad 2,
       Event.sectorRead 4088 1 false, Event.fatLoad 0xFF7] :=
  ⟨by decide, by decide, by decide, by decide, by decide⟩

/-! ## Region layout -/

theorem ceilDiv_eq (n b : Nat) (hb : 0 < b) :
    n / b + (if n % b > 0 then 1 else 0) = ceilDiv n b := by
  have key : ∀ q r, r < b → (b * q + r + b - 1) / b = q + if r > 0 then 1 else 0 := by
    intro q r hr
    by_cases h0 : r = 0
    · subst h0
      have : b * q + 0 + b - 1 = (b - 1) + b * q := by omega
      rw [this, Nat.add_mul_div_left _ _ hb, Nat.div_eq_of_lt (by omega)]
      simp
    · have : b * q + r + b - 1 = (r - 1) + b * (q + 1) := by
        rw [Nat.mul_add]
        omega
      rw [this, Nat.add_mul_div_left _ _ hb, Nat.div_eq_of_lt (by omega)]
      have hpos : r > 0 := Nat.pos_of_ne_zero h0
      simp [hpos]
  have h := key (n / b) (n % b) (Nat.mod_lt _ hb)
  rw [Nat.div_add_mod] at h
  unfold ceilDiv
  rw [h]

theorem ceilDiv_bounds (n b : Nat) (hb : 0 < b) :
    n ≤ ceilDiv n b * b ∧ ceilDiv n b * b < n + b := by
  rw [← ceilDiv_eq n b hb]
  have hdm := Nat.div_add_mod n b
  have hmod := Nat.mod_lt n hb
  have hmul : n / b * b = b * (n / b) := Nat.mul_comm _ _
  by_cases h0 : n % b > 0
  · rw [if_pos h0, Nat.add_mul, hmul]
    omega
  · rw [if_neg h0, Nat.add_zero, hmul]
    omega

theorem readRootDirectory_eq (g : Globals) (disk : List Nat)
    (hr : fieldsInRange g.global_BootSector) (hbps : 0 < g.global_BootSector.BytesPerSector) :
    readRootDirectory g disk = .returns
      ((readSectors g disk (rootDirectoryLba g.global_BootSector)
          (rootDirectorySectors g.global_BootSector)).1,
        { g with
          global_RootDirectory := (readSectors g disk (rootDirectoryLba g.global_BootSector)
            (rootDirectorySectors g.global_BootSector)).2
          global_RootDirectoryEnd := rootDirectoryLba g.global_BootSector
            + rootDirectorySectors g.global_BootSector }) := by
  obtain ⟨hB, _, hR, hF, hD, hS⟩ := hr
  have hFS : g.global_BootSector.FatCount * g.global_BootSector.SectorsPerFat
      ≤ 255 * 65535 := Nat.mul_le_mul (by omega) (by omega)
  have hlba : (g.global_BootSector.ReservedSectors
      + g.global_BootSector.FatCount * g.global_BootSector.SectorsPerFat) % 4294967296
      = rootDirectoryLba g.global_BootSector := by
    unfold rootDirectoryLba
    exact Nat.mod_eq_of_lt (by omega)
  have hsize : (g.global_BootSector.DirEntryCount * sizeofDirectoryEntry) % 4294967296
      = g.global_BootSector.DirEntryCount * 32 := by
    unfold sizeofDirectoryEntry
    exact Nat.mod_eq_of_lt (by omega)
  have hne : g.global_BootSector.BytesPerSector ≠ 0 := by omega
  have hceil := ceilDiv_eq (g.global_BootSector.DirEntryCount * 32)
    g.global_BootSector.BytesPerSector hbps
  have hdiv : g.global_BootSector.DirEntryCount * 32 / g.global_BootSector.BytesPerSector
      ≤ g.global_BootSector.DirEntryCount * 32 := Nat.div_le_self _ _
  have hsec : (if g.global_BootSector.DirEntryCount * 32
        % g.global_BootSector.BytesPerSector > 0
      then (g.global_BootSector.DirEntryCount * 32 / g.global_BootSector.BytesPerSector + 1)
        % 4294967296
      else g.global_BootSector.DirEntryCount * 32 / g.global_BootSector.BytesPerSector)
      = rootDirectorySectors g.global_BootSector := by
    unfold rootDirectorySectors
    rw [← hceil]
    by_cases h0 : g.global_BootSector.DirEntryCount * 32
        % g.global_BootSector.BytesPerSector > 0
    · rw [if_pos h0, if_pos h0]
      exact Nat.mod_eq_of_lt (by omega)
    · rw [if_neg h0, if_neg h0]
      rfl
  have hsecle : rootDirectorySectors g.global_BootSector
      ≤ g.global_BootSector.DirEntryCount * 32 + 1 := by
    rw [← hsec]
    split
    · exact le_trans (Nat.mod_le _ _) (by omega)
    · omega
  have hend : (rootDirectoryLba g.global_BootSector
      + rootDirectorySectors g.global_BootSector) % 4294967296
      = rootDirectoryLba g.global_BootSector + rootDirectorySectors g.global_BootSector := by
    apply Nat.mod_eq_of_lt
    unfold rootDirectoryLba
    omega
  simp only [readRootDirectory, hlba, hsize, hne, if_false, hsec, hend]

theorem readFat_eq (g : Globals) (disk : List Nat)
    (hfit : g.global_BootSector.SectorsPerFat * g.global_BootSector.BytesPerSector
      ≤ 2147483647) :
    readFat g disk = .returns
      ((readSectors g disk g.global_BootSector.ReservedSectors
          g.global_BootSector.SectorsPerFat).1,
        { g with global_Fat := (readSectors g disk g.global_BootSector.ReservedSectors
            g.global_BootSector.SectorsPerFat).2 }) := by
  have : ¬ 2147483647 < g.global_BootSector.SectorsPerFat
      * g.global_BootSector.BytesPerSector := by omega
  simp only [readFat, this, if_false]

theorem layout_fits_32_bits (bs : BootSector) (hr : fieldsInRange bs)
    (hbps : 0 < bs.BytesPerSector) :
    rootDirectoryLba bs ≤ 16776960 ∧ rootDirectorySectors bs ≤ 2097120 ∧
    rootDirectoryLba bs + rootDirectorySectors bs < 4294967296 := by
  obtain ⟨hB, _, hR, hF, hD, hS⟩ := hr
  have hFS : bs.FatCount * bs.SectorsPerFat ≤ 255 * 65535 :=
    Nat.mul_le_mul (by omega) (by omega)
  have h1 : rootDirectoryLba bs ≤ 16776960 := by
    unfold rootDirectoryLba
    omega
  have h2 : rootDirectorySectors bs ≤ 2097120 := by
    have hb := (ceilDiv_bounds (bs.DirEntryCount * 32) bs.BytesPerSector hbps).2
    unfold rootDirectorySectors
    by_contra hgt
    have hmul : 2097121 * bs.BytesPerSector
        ≤ ceilDiv (bs.DirEntryCount * 32) bs.BytesPerSector * bs.BytesPerSector :=
      Nat.mul_le_mul_right _ (by omega)
    omega
  exact ⟨h1, h2, by omega⟩

set_option maxRecDepth 8000 in
/-- C12, the code at its limits.  With members in range, `BytesPerSector > 0` and
`SectorsPerFat * BytesPerSector` at most `INT_MAX`, the FAT is read as `SectorsPerFat`
sectors from LBA `ReservedSectors`, the root directory from LBA `ReservedSectors +
FatCount * SectorsPerFat` over `ceil(DirEntryCount * 32 / BytesPerSector)` sectors, the
recorded base is their sum, and none of these wraps.  But for `SectorsPerFat =
BytesPerSector = 65535` the `int` product in `readFat` overflows (undefined), and for
512-byte sectors and 255 FATs of 65535 sectors the byte offset of the root directory
read, `16711425 * 512`, wraps modulo `2^32` to byte 4261282304. -/
theorem C12_layout_and_overflow :
    (∀ (g : Globals) (disk : List Nat), fieldsInRange g.global_BootSector →
      0 < g.global_BootSector.BytesPerSector →
      g.global_BootSector.SectorsPerFat * g.global_BootSector.BytesPerSector ≤ 2147483647 →
      readFat g disk = .returns
        ((readSectors g disk g.global_BootSector.ReservedSectors
            g.global_BootSector.SectorsPerFat).1,
          { g with global_Fat := (readSectors g disk g.global_BootSector.ReservedSectors
              g.global_BootSector.SectorsPerFat).2 }) ∧
      readRootDirectory g disk = .returns
        ((readSectors g disk (rootDirectoryLba g.global_BootSector)
            (rootDirectorySectors g.global_BootSector)).1,
          { g with
            global_RootDirectory := (readSectors g disk (rootDirectoryLba g.global_BootSector)
              (rootDirectorySectors g.global_BootSector)).2
            global_RootDirectoryEnd := rootDirectoryLba g.global_BootSector
              + rootDirectorySectors g.global_BootSector }) ∧
      rootDirectoryLba g.global_BootSector
        + rootDirectorySectors g.global_BootSector < 4294967296) ∧
    (fieldsInRange (readBootSector initialGlobals wideImage).2.global_BootSector ∧
      (readBootSector initialGlobals wideImage).2.global_BootSector.BytesPerSector = 65535 ∧
      (readBootSector initialGlobals wideImage).2.global_BootSector.SectorsPerFat = 65535 ∧
      readFat (readBootSector initialGlobals wideImage).2 wideImage
        = .undefined .signedOverflow ∧
      ∀ argv2 fuel, mainOnDisk wideImage argv2 fuel = .undefined .signedOverflow) ∧
    (fieldsInRange farGlobals.global_BootSector ∧
      rootDirectoryLba farGlobals.global_BootSector = 16711425 ∧
      16711425 * 512 = 4294967296 + 4261282304 ∧
      ∀ disk, (readSectors farGlobals disk 16711425 1).2 = bytesAt disk 4261282304 512) := by
  refine ⟨?_, ⟨by decide, by decide, by decide, by decide, ?_⟩,
    ⟨by decide, by decide, by decide, ?_⟩⟩
  · intro g disk hr hbps hfit
    exact ⟨readFat_eq g disk hfit, readRootDirectory_eq g disk hr hbps,
      (layout_fits_32_bits _ hr hbps).2.2⟩
  · intro argv2 fuel
    have hb : readBootSector initialGlobals wideImage
        = (true, (readBootSector initialGlobals wideImage).2) := by decide
    have hf : readFat (readBootSector initialGlobals wideImage).2 wideImage
        = .undefined .signedOverflow := by decide
    simp only [mainOnDisk]
    rw [hb]
    simp only [Bool.not_true, Bool.false_eq_true, if_false]
    rw [hf]
  · intro disk
    rfl

/-- C20: with members in range and `BytesPerSector > 0`, `readRootDirectory` loads
`ceil(DirEntryCount * 32 / BytesPerSector)` sectors; that number times `BytesPerSector`
is at least `DirEntryCount * 32` and less than `DirEntryCount * 32 + BytesPerSector`,
so after a successful load every entry `i < DirEntryCount` lies entirely inside the
directory block.  The division is undefined exactly when `BytesPerSector = 0`, and no
check precedes it: on the image of 62 zero bytes `main` reaches the division. -/
theorem C20_directory_block_covers_entries (g : Globals) (disk : List Nat)
    (hr : fieldsInRange g.global_BootSector) :
    (0 < g.global_BootSector.BytesPerSector →
      readRootDirectory g disk = .returns
        ((readSectors g disk (rootDirectoryLba g.global_BootSector)
            (rootDirectorySectors g.global_BootSector)).1,
          { g with
            global_RootDirectory := (readSectors g disk (rootDirectoryLba g.global_BootSector)
              (rootDirectorySectors g.global_BootSector)).2
            global_RootDirectoryEnd := rootDirectoryLba g.global_BootSector
              + rootDirectorySectors g.global_BootSector }) ∧
      g.global_BootSector.DirEntryCount * 32
        ≤ rootDirectorySectors g.global_BootSector * g.global_BootSector.BytesPerSector ∧
      rootDirectorySectors g.global_BootSector * g.global_BootSector.BytesPerSector
        < g.global_BootSector.DirEntryCount * 32 + g.global_BootSector.BytesPerSector ∧
      ((readSectors g disk (rootDirectoryLba g.global_BootSector)
          (rootDirectorySectors g.global_BootSector)).1 = true →
        ∀ i, i < g.global_BootSector.DirEntryCount →
          sizeofDirectoryEntry * (i + 1)
            ≤ (readSectors g disk (rootDirectoryLba g.global_BootSector)
                (rootDirectorySectors g.global_BootSector)).2.length)) ∧
    (∀ f, readRootDirectory g disk = .undefined f ↔
      (g.global_BootSector.BytesPerSector = 0 ∧ f = .divisionByZero)) ∧
    (∀ argv2 fuel, mainOnDisk zeroImage argv2 fuel = .undefined .divisionByZero) := by
  refine ⟨?_, ?_, ?_⟩
  · intro hbps
    have hb := ceilDiv_bounds (g.global_BootSector.DirEntryCount * 32)
      g.global_BootSector.BytesPerSector hbps
    refine ⟨readRootDirectory_eq g disk hr hbps, hb.1, hb.2, ?_⟩
    intro hok i hi
    rw [readSectors_length_of_ok hok, Nat.mul_comm g.global_BootSector.BytesPerSector]
    have h1 : sizeofDirectoryEntry * (i + 1) ≤ g.global_BootSector.DirEntryCount * 32 := by
      unfold sizeofDirectoryEntry
      omega
    exact le_trans h1 hb.1
  · intro f
    by_cases h0 : g.global_BootSector.BytesPerSector = 0
    · simp only [readRootDirectory, h0, if_true]
      constructor
      · intro h
        injection h with h
        exact ⟨trivial, h.symm⟩
      · rintro ⟨_, h⟩
        rw [h]
    · rw [readRootDirectory_eq g disk hr (Nat.pos_of_ne_zero h0)]
      constructor
      · intro h
        cases h
      · rintro ⟨h, _⟩
        exact absurd h h0
  · intro argv2 fuel
    have hb : readBootSector initialGlobals zeroImage
        = (true, (readBootSector initialGlobals zeroImage).2) := by decide
    have hf : readFat (readBootSector initialGlobals zeroImage).2 zeroImage
        = .returns (true, (readBootSector initialGlobals zeroImage).2) := by decide
    have hd : readRootDirectory (readBootSector initialGlobals zeroImage).2 zeroImage
        = .undefined .divisionByZero := by decide
    simp only [mainOnDisk]
    rw [hb]
    simp only [Bool.not_true, Bool.false_eq_true, if_false]
    rw [hf]
    simp only []
    rw [hd]

set_option maxRecDepth 8000 in
theorem C20_directory_block_covers_entries_witness :
    fieldsInRange helloGlobals.global_BootSector ∧
    rootDirectorySectors helloGlobals.global_BootSector = 1 ∧
    helloGlobals.global_BootSector.DirEntryCount * 32
      ≤ rootDirectorySectors helloGlobals.global_BootSector
        * helloGlobals.global_BootSector.BytesPerSector :=
  ⟨by decide, by decide,
   ((C20_directory_block_covers_entries helloGlobals helloImage (by decide)).1
      (by decide)).2.1⟩

/-! ## Exit statuses -/

set_option maxRecDepth 8000 in
/-- C15, the code on one input of each class: cannot open gives -1, a 61-byte image
(no boot sector) -2, an image cut after the boot sector -3, cut after the FAT -4, an
absent name -5, the image cut before the file's cluster -5 again, and success 0.  All
failures are non-zero, but file-not-found and cannot-read-file share the status -5. -/
theorem C15_exit_status_per_failure_class :
    main (fun _ => none) (text "fat") [text "test.img", text "HELLO   TXT"] 1 =
      .returns { status := -1, stdout := [],
                 stderr := text "Cannot open disk image test.img\n" } ∧
    main (fun _ => some (helloImage.take 61)) (text "fat")
        [text "test.img", text "HELLO   TXT"] 1 =
      .returns { status := -2, stdout := [],
                 stderr := text "Could not read the boot sector!\n" } ∧
    main (fun _ => some (helloImage.take 512)) (text "fat")
        [text "test.img", text "HELLO   TXT"] 1 =
      .returns { status := -3, stdout := [], stderr := text "Could not read FAT!\n" } ∧
    main (fun _ => some (helloImage.take 1024)) (text "fat")
        [text "test.img", text "HELLO   TXT"] 1 =
      .returns { status := -4, stdout := [],
                 stderr := text "Could not read the Root Directory!\n" } ∧
    main (fun _ => some helloImage) (text "fat") [text "test.img", text "NOFILE  TXT"] 1 =
      .returns { status := -5, stdout := [],
                 stderr := text "Could not find File NOFILE  TXT!\n" } ∧
    main (fun _ => some (helloImage.take 1536)) (text "fat")
        [text "test.img", text "HELLO   TXT"] 1 =
      .returns { status := -5, stdout := [],
                 stderr := text "Could not read File HELLO   TXT!\n" } ∧
    main (fun _ => some helloImage) (text "fat") [text "test.img", text "HELLO   TXT"] 1 =
      .returns { status := 0, stdout := text "HELLO\n", stderr := [] } :=
  ⟨by decide, by decide, by decide, by decide, by decide, by decide, by decide⟩

/-! ## Output on success -/

theorem hexDigit_eq_hexChars : ∀ d, d < 16 → hexDigit d = hexChars.getD d 0 := by
  decide

theorem printByte_eq_specRenderByte (b : Nat) (hb : b < 256) :
    printByte b = specRenderByte b := by
  unfold printByte specRenderByte isprint
  by_cases hp : 0x20 ≤ b ∧ b ≤ 0x7E
  · simp [hp.1, hp.2]
  · have hd : ¬ (32 ≤ b ∧ b ≤ 126) := hp
    rw [if_neg hp, hexDigit_eq_hexChars (b / 16) (by omega),
      hexDigit_eq_hexChars (b % 16) (by omega)]
    by_cases h1 : 32 ≤ b
    · have h2 : ¬ b ≤ 126 := fun h => hd ⟨h1, h⟩
      simp [h1, h2]
      rfl
    · simp [h1]
      rfl

theorem flatMap_printByte_eq_specRender (l : List Nat) (hl : ∀ b ∈ l, b < 256) :
    l.flatMap printByte = specRender l := by
  induction l with
  | nil => rfl
  | cons a t ih =>
    unfold specRender at ih ⊢
    rw [List.flatMap_cons, List.flatMap_cons, printByte_eq_specRenderByte a (hl a (by simp)),
      ih (fun b hb => hl b (List.mem_cons_of_mem _ hb))]

theorem clusterBytes_subset (g : Globals) (disk : List Nat) (c : Nat) :
    ∀ b ∈ clusterBytes g disk c, b ∈ disk := by
  intro b hb
  unfold clusterBytes bytesAt at hb
  exact List.mem_of_mem_drop (List.mem_of_mem_take hb)

theorem readFileLoop_buffer_from_disk (g : Globals) (disk : List Nat) :
    ∀ (fuel : Nat) (s : WalkState), (s.ok = true ∧ ∀ b ∈ s.outputBuffer, b ∈ disk) →
      ∀ b ∈ (readFileLoop g disk fuel s).state.outputBuffer, b ∈ disk := by
  apply readFileLoop_induct g disk (fun s => s.ok = true ∧ ∀ b ∈ s.outputBuffer, b ∈ disk)
    (fun out => ∀ b ∈ out.state.outputBuffer, b ∈ disk)
  · rintro s ⟨_, h⟩
    exact h
  · rintro s s1 ⟨hs, h⟩ hb
    rcases readFileBody_cases g disk hs with ⟨_, hb1⟩ | ⟨v, _, hb1⟩
    · rw [hb1] at hb
      injection hb with hb
      subst hb
      intro b hmem
      rcases List.mem_append.1 hmem with h1 | h1
      · exact h b h1
      · exact clusterBytes_subset g disk _ b h1
    · rw [hb1] at hb
      cases hb
  · rintro s s1 ⟨hs, h⟩ hb _
    rcases readFileBody_cases g disk hs with ⟨_, hb1⟩ | ⟨v, _, hb1⟩
    · rw [hb1] at hb
      cases hb
    · rw [hb1] at hb
      injection hb with hb
      subst hb
      intro b hmem
      rcases List.mem_append.1 hmem with h1 | h1
      · exact h b h1
      · exact clusterBytes_subset g disk _ b h1
  · rintro s s1 ⟨hs, h⟩ hb hok _
    rcases readFileBody_cases g disk hs with ⟨_, hb1⟩ | ⟨v, _, hb1⟩
    · rw [hb1] at hb
      cases hb
    · rw [hb1] at hb
      injection hb with hb
      subst hb
      refine ⟨hok, ?_⟩
      intro b hmem
      rcases List.mem_append.1 hmem with h1 | h1
      · exact h b h1
      · exact clusterBytes_subset g disk _ b h1

theorem mainReadAndPrint_success (g : Globals) (disk argv2 : List Nat) (i fuel : Nat)
    (r : Exit) (hret : mainReadAndPrint g disk argv2 i fuel = .returns r)
    (h0 : r.status = 0) :
    ∃ s, readFile g (directoryEntryAt g.global_RootDirectory i) disk fuel = .returns s ∧
      s.ok = true ∧
      (directoryEntryAt g.global_RootDirectory i).Size ≤ s.outputBuffer.length ∧
      s.outputBuffer.length ≤ bufferLength g (directoryEntryAt g.global_RootDirectory i) ∧
      r = { status := 0
            stdout := printContents (directoryEntryAt g.global_RootDirectory i) s.outputBuffer
            stderr := [] } := by
  simp only [mainReadAndPrint] at hret
  cases hw : readFile g (directoryEntryAt g.global_RootDirectory i) disk fuel with
  | running s =>
    rw [hw] at hret
    simp only [] at hret
    split at hret <;> cases hret
  | undefined s =>
    rw [hw] at hret
    simp only [] at hret
    split at hret <;> cases hret
  | returns s =>
    rw [hw] at hret
    simp only [] at hret
    split at hret
    · cases hret
    · rename_i hcap
      split at hret
      · injection hret with hret
        rw [← hret] at h0
        simp at h0
      · rename_i hok
        split at hret
        · cases hret
        · rename_i hlen
          injection hret with hret
          refine ⟨s, rfl, by simpa using hok, by omega, by omega, hret.symm⟩

theorem mainOnDisk_success (disk argv2 : List Nat) (fuel : Nat) (r : Exit)
    (hret : mainOnDisk disk argv2 fuel = .returns r) (h0 : r.status = 0) :
    ∃ g i, loadedGlobals disk = some g ∧
      findFile g (argv2 ++ [0]) = .returns (some i) ∧
      mainReadAndPrint g disk argv2 i fuel = .returns r := by
  simp only [mainOnDisk] at hret
  simp only [loadedGlobals]
  split at hret
  · injection hret with hret
    rw [← hret] at h0
    simp at h0
  · rename_i hb
    rw [if_neg hb]
    split at hret
    · cases hret
    · cases hret
    · injection hret with hret
      rw [← hret] at h0
      simp at h0
    · rename_i g1 hf
      rw [hf]
      simp only []
      split at hret
      · cases hret
      · cases hret
      · injection hret with hret
        rw [← hret] at h0
        simp at h0
      · rename_i g2 hd
        rw [hd]
        simp only []
        split at hret
        · cases hret
        · cases hret
        · injection hret with hret
          rw [← hret] at h0
          simp at h0
        · rename_i i hfind
          exact ⟨g2, i, rfl, hfind, hret⟩

theorem readFile_buffer_from_disk (g : Globals) (disk : List Nat) (fileEntry : DirectoryEntry)
    (fuel : Nat) : ∀ b ∈ (readFile g fileEntry disk fuel).state.outputBuffer, b ∈ disk :=
  readFileLoop_buffer_from_disk g disk fuel
    { ok := true, currentCluster := fileEntry.FirstClusterLow, outputBuffer := [], trace := [] }
    ⟨rfl, by simp⟩

theorem printContents_eq_specRender (fileEntry : DirectoryEntry) (buffer : List Nat)
    (hb : ∀ b ∈ buffer, b < 256) :
    printContents fileEntry buffer = specRender (trimmed fileEntry buffer) ++ text "\n" := by
  unfold printContents
  rw [flatMap_printByte_eq_specRender]
  · rfl
  · intro b hmem
    exact hb b (List.mem_of_mem_take hmem)

/-- C18: the command returns 0 exactly on the path on which the image is opened and
loaded, the name is found and `readFile` returns success with at least `Size` bytes
stored inside the buffer; its standard output is then, for each of the first `Size`
bytes of the recovered data in order, the byte itself when it is printable
(`0x20..0x7E`) and otherwise `<`, two lowercase hexadecimal digits, `>`, followed by
exactly one newline, and nothing is written to the diagnostic stream. -/
theorem C18_success_output (fopen : List Nat → Option (List Nat)) (argv0 : List Nat)
    (args : List (List Nat)) (fuel : Nat)
    (hbytes : ∀ path disk, fopen path = some disk → ∀ b ∈ disk, b < 256) :
    (∀ r, main fopen argv0 args fuel = .returns r → r.status = 0 →
      ∃ path name rest disk g i s,
        args = path :: name :: rest ∧ fopen path = some disk ∧
        loadedGlobals disk = some g ∧ findFile g (name ++ [0]) = .returns (some i) ∧
        readFile g (directoryEntryAt g.global_RootDirectory i) disk fuel = .returns s ∧
        s.ok = true ∧
        (trimmed (directoryEntryAt g.global_RootDirectory i) s.outputBuffer).length
          = (directoryEntryAt g.global_RootDirectory i).Size ∧
        r.stdout = specRender
          (trimmed (directoryEntryAt g.global_RootDirectory i) s.outputBuffer) ++ text "\n" ∧
        r.stderr = []) ∧
    (∀ path name rest disk g i s,
      args = path :: name :: rest → fopen path = some disk →
      loadedGlobals disk = some g → findFile g (name ++ [0]) = .returns (some i) →
      readFile g (directoryEntryAt g.global_RootDirectory i) disk fuel = .returns s →
      s.ok = true →
      (directoryEntryAt g.global_RootDirectory i).Size ≤ s.outputBuffer.length →
      s.outputBuffer.length ≤ bufferLength g (directoryEntryAt g.global_RootDirectory i) →
      main fopen argv0 args fuel = .returns
        { status := 0
          stdout := specRender
            (trimmed (directoryEntryAt g.global_RootDirectory i) s.outputBuffer) ++ text "\n"
          stderr := [] }) := by
  constructor
  · intro r hret h0
    unfold main at hret
    split at hret
    · rename_i argv1 argv2 rest
      split at hret
      · injection hret with hret
        rw [← hret] at h0
        simp at h0
      · rename_i disk hopen
        obtain ⟨g, i, hg, hfind, hmrp⟩ := mainOnDisk_success disk argv2 fuel r hret h0
        obtain ⟨s, hrf, hok, hsize, _, hr⟩ := mainReadAndPrint_success g disk argv2 i fuel r
          hmrp h0
        have hb : ∀ b ∈ s.outputBuffer, b < 256 := by
          intro b hmem
          have := readFile_buffer_from_disk g disk
            (directoryEntryAt g.global_RootDirectory i) fuel
          rw [hrf] at this
          exact hbytes argv1 disk hopen b (this b hmem)
        refine ⟨argv1, argv2, rest, disk, g, i, s, rfl, hopen, hg, hfind, hrf, hok, ?_, ?_, ?_⟩
        · unfold trimmed
          rw [List.length_take]
          omega
        · rw [hr]
          exact printContents_eq_specRender _ _ hb
        · rw [hr]
    · injection hret with hret
      rw [← hret] at h0
      simp at h0
  · intro path name rest disk g i s hargs hopen hg hfind hrf hok hsize hcap
    subst hargs
    have hb : ∀ b ∈ s.outputBuffer, b < 256 := by
      intro b hmem
      have := readFile_buffer_from_disk g disk
        (directoryEntryAt g.global_RootDirectory i) fuel
      rw [hrf] at this
      exact hbytes path disk hopen b (this b hmem)
    simp only [main, hopen]
    rw [mainOnDisk_of_loadedGlobals disk name fuel i g hg hfind]
    simp only [mainReadAndPrint, hrf]
    rw [if_neg (by omega), if_neg (by simp [hok]), if_neg (by omega),
      printContents_eq_specRender _ _ hb]

theorem bytes_append {l1 l2 : List Nat} (h1 : ∀ b ∈ l1, b < 256) (h2 : ∀ b ∈ l2, b < 256) :
    ∀ b ∈ l1 ++ l2, b < 256 := by
  intro b hb
  rcases List.mem_append.1 hb with h | h
  · exact h1 b h
  · exact h2 b h

theorem bytes_replicate_zero (n : Nat) : ∀ b ∈ List.replicate n 0, b < 256 := by
  intro b hb
  rw [List.eq_of_mem_replicate hb]
  decide

theorem helloImage_bytes : ∀ b ∈ helloImage, b < 256 := by
  unfold helloImage helloBootSector helloFat helloRootDirectory helloData
  refine bytes_append (bytes_append (bytes_append ?_ ?_) ?_) ?_
  · exact bytes_append (by decide) (bytes_replicate_zero _)
  · exact bytes_append (by decide) (bytes_replicate_zero _)
  · exact bytes_append (by decide) (bytes_replicate_zero _)
  · exact bytes_append (by decide) (bytes_replicate_zero _)

set_option maxRecDepth 8000 in
theorem C18_success_output_witness :
    ∃ path name rest disk g i s,
      [text "test.img", text "HELLO   TXT"] = path :: name :: rest ∧
      (fun _ => some helloImage) path = some disk ∧
      loadedGlobals disk = some g ∧ findFile g (name ++ [0]) = .returns (some i) ∧
      readFile g (directoryEntryAt g.global_RootDirectory i) disk 1 = .returns s ∧
      s.ok = true ∧
      (trimmed (directoryEntryAt g.global_RootDirectory i) s.outputBuffer).length
        = (directoryEntryAt g.global_RootDirectory i).Size ∧
      (Exit.mk 0 (text "HELLO\n") []).stdout = specRender
        (trimmed (directoryEntryAt g.global_RootDirectory i) s.outputBuffer) ++ text "\n" ∧
      (Exit.mk 0 (text "HELLO\n") []).stderr = [] :=
  (C18_success_output (fun _ => some helloImage) (text "fat")
    [text "test.img", text "HELLO   TXT"] 1
    (by
      intro path disk hopen
      injection hopen with hopen
      rw [← hopen]
      exact helloImage_bytes)).1 (Exit.mk 0 (text "HELLO\n") []) (by decide) rfl

/-! ## On-disk layouts -/

theorem getD_take_of_lt (l : List Nat) (n i : Nat) (h : i < n) :
    (l.take n).getD i 0 = l.getD i 0 := by
  rw [List.getD_eq_getElem?_getD, List.getD_eq_getElem?_getD, List.getElem?_take_of_lt h]

theorem readBootSector_ok_iff (g : Globals) (disk : List Nat) :
    (readBootSector g disk).1 = true ↔ 62 ≤ disk.length := by
  simp only [readBootSector, fread, sizeofBootSector, List.drop_zero, List.length_take,
    decide_eq_true_eq]
  constructor
  · intro h
    by_contra hlt
    have hmin : min (62 * 1) disk.length = disk.length := by omega
    rw [hmin, if_neg (by omega), Nat.div_eq_of_lt (by omega)] at h
    omega
  · intro h
    have hmin : min (62 * 1) disk.length = 62 := by omega
    rw [hmin, if_neg (by omega)]
    decide

/-- C16: the packed struct `BootSector` occupies 62 bytes and has `BytesPerSector` at
offset 11, `SectorsPerCluster` at 13, `ReservedSectors` at 14, `FatCount` at 16,
`DirEntryCount` at 17, `TotalSectors` at 19 and `SectorsPerFat` at 22; `readBootSector`
succeeds exactly when the image has at least 62 bytes, and then these members are the
bytes of the image at those offsets, 16-bit members little-endian. -/
theorem C16_boot_sector_decoding (disk : List Nat) :
    structSize bootSectorMembers = 62 ∧ sizeofBootSector = 62 ∧
    memberOffset bootSectorMembers "BytesPerSector" = some 11 ∧
    memberOffset bootSectorMembers "SectorsPerCluster" = some 13 ∧
    memberOffset bootSectorMembers "ReservedSectors" = some 14 ∧
    memberOffset bootSectorMembers "FatCount" = some 16 ∧
    memberOffset bootSectorMembers "DirEntryCount" = some 17 ∧
    memberOffset bootSectorMembers "TotalSectors" = some 19 ∧
    memberOffset bootSectorMembers "SectorsPerFat" = some 22 ∧
    ((readBootSector initialGlobals disk).1 = true ↔ 62 ≤ disk.length) ∧
    (62 ≤ disk.length →
      (readBootSector initialGlobals disk).2.global_BootSector.BytesPerSector
        = disk.getD 11 0 + 256 * disk.getD 12 0 ∧
      (readBootSector initialGlobals disk).2.global_BootSector.SectorsPerCluster
        = disk.getD 13 0 ∧
      (readBootSector initialGlobals disk).2.global_BootSector.ReservedSectors
        = disk.getD 14 0 + 256 * disk.getD 15 0 ∧
      (readBootSector initialGlobals disk).2.global_BootSector.FatCount
        = disk.getD 16 0 ∧
      (readBootSector initialGlobals disk).2.global_BootSector.DirEntryCount
        = disk.getD 17 0 + 256 * disk.getD 18 0 ∧
      (readBootSector initialGlobals disk).2.global_BootSector.TotalSectors
        = disk.getD 19 0 + 256 * disk.getD 20 0 ∧
      (readBootSector initialGlobals disk).2.global_BootSector.SectorsPerFat
        = disk.getD 22 0 + 256 * disk.getD 23 0) := by
  refine ⟨by decide, rfl, by decide, by decide, by decide, by decide, by decide, by decide,
    by decide, readBootSector_ok_iff _ _, ?_⟩
  intro hlen
  rw [readBootSector_inside initialGlobals disk hlen]
  simp only [decodeBootSector, u16At, byteAt]
  refine ⟨?_, ?_, ?_, ?_, ?_, ?_, ?_⟩
  · rw [getD_take_of_lt disk 62 11 (by decide), getD_take_of_lt disk 62 (11 + 1) (by decide)]
  · rw [getD_take_of_lt disk 62 13 (by decide)]
  · rw [getD_take_of_lt disk 62 14 (by decide), getD_take_of_lt disk 62 (14 + 1) (by decide)]
  · rw [getD_take_of_lt disk 62 16 (by decide)]
  · rw [getD_take_of_lt disk 62 17 (by decide), getD_take_of_lt disk 62 (17 + 1) (by decide)]
  · rw [getD_take_of_lt disk 62 19 (by decide), getD_take_of_lt disk 62 (19 + 1) (by decide)]
  · rw [getD_take_of_lt disk 62 22 (by decide), getD_take_of_lt disk 62 (22 + 1) (by decide)]

/-- Byte `k` of the member at offset `pos`, for a member inside the block. -/
theorem bytesAt_eq_map (m : List Nat) (pos n : Nat) (h : pos + n ≤ m.length) :
    bytesAt m pos n = (List.range n).map (fun k => m.getD (pos + k) 0) := by
  apply List.ext_getElem?
  intro j
  unfold bytesAt
  by_cases hj : j < n
  · have h1 : pos + j < m.length := by omega
    rw [List.getElem?_take_of_lt hj, List.getElem?_drop, List.getElem?_map,
      List.getElem?_range hj, List.getElem?_eq_getElem h1]
    simp [List.getD_eq_getElem?_getD, List.getElem?_eq_getElem h1]
  · have hlen : ((m.drop pos).take n).length ≤ j := by
      rw [List.length_take, List.length_drop]
      omega
    rw [List.getElem?_eq_none hlen, List.getElem?_eq_none (by simp; omega)]

/-- C17: the packed struct `DirectoryEntry` occupies 32 bytes with `Name` at offset 0,
`Attributes` at 11, `FirstClusterHigh` at 20, `FirstClusterLow` at 26 and `Size` at 28;
in a directory block holding `DirEntryCount` entries, entry `i < DirEntryCount` has as
`Name` the 11 bytes `32*i+0 .. 32*i+10`, as `Attributes` byte `32*i+11`, and as
`FirstClusterHigh`, `FirstClusterLow` and `Size` the little-endian values of bytes
`32*i+20..21`, `32*i+26..27` and `32*i+28..31`. -/
theorem C17_directory_entry_layout (g : Globals) (i : Nat)
    (hdir : sizeofDirectoryEntry * g.global_BootSector.DirEntryCount
      ≤ g.global_RootDirectory.length)
    (hi : i < g.global_BootSector.DirEntryCount) :
    structSize directoryEntryMembers = 32 ∧ sizeofDirectoryEntry = 32 ∧
    memberOffset directoryEntryMembers "Name" = some 0 ∧
    memberOffset directoryEntryMembers "Attributes" = some 11 ∧
    memberOffset directoryEntryMembers "FirstClusterHigh" = some 20 ∧
    memberOffset directoryEntryMembers "FirstClusterLow" = some 26 ∧
    memberOffset directoryEntryMembers "Size" = some 28 ∧
    32 * i + 32 ≤ g.global_RootDirectory.length ∧
    (directoryEntryAt g.global_RootDirectory i).Name
      = (List.range 11).map (fun k => g.global_RootDirectory.getD (32 * i + k) 0) ∧
    (directoryEntryAt g.global_RootDirectory i).Attributes
      = g.global_RootDirectory.getD (32 * i + 11) 0 ∧
    (directoryEntryAt g.global_RootDirectory i).FirstClusterHigh
      = g.global_RootDirectory.getD (32 * i + 20) 0
        + 256 * g.global_RootDirectory.getD (32 * i + 21) 0 ∧
    (directoryEntryAt g.global_RootDirectory i).FirstClusterLow
      = g.global_RootDirectory.getD (32 * i + 26) 0
        + 256 * g.global_RootDirectory.getD (32 * i + 27) 0 ∧
    (directoryEntryAt g.global_RootDirectory i).Size
      = g.global_RootDirectory.getD (32 * i + 28) 0
        + 256 * g.global_RootDirectory.getD (32 * i + 29) 0
        + 65536 * g.global_RootDirectory.getD (32 * i + 30) 0
        + 16777216 * g.global_RootDirectory.getD (32 * i + 31) 0 := by
  have hin : 32 * i + 32 ≤ g.global_RootDirectory.length := by
    unfold sizeofDirectoryEntry at hdir
    omega
  refine ⟨by decide, rfl, by decide, by decide, by decide, by decide, by decide, hin,
    ?_, rfl, rfl, rfl, rfl⟩
  simp only [directoryEntryAt, sizeofDirectoryEntry]
  exact bytesAt_eq_map _ _ _ (by omega)

set_option maxRecDepth 8000 in
theorem C17_directory_entry_layout_witness :
    (directoryEntryAt helloGlobals.global_RootDirectory 0).Name = text "HELLO   TXT" ∧
    (directoryEntryAt helloGlobals.global_RootDirectory 0).Name
      = (List.range 11).map (fun k => helloGlobals.global_RootDirectory.getD (32 * 0 + k) 0) :=
  ⟨by decide,
   (C17_directory_entry_layout helloGlobals 0 (by decide) (by decide)).2.2.2.2.2.2.2.2.1⟩

/-! ## The self-loop and the buffer of `main` -/

theorem flatMap_replicate_length (f : Nat → List Nat) (c : Nat) :
    ∀ k, ((List.replicate k c).flatMap f).length = k * (f c).length
  | 0 => by simp
  | k + 1 => by
    rw [List.replicate_succ, List.flatMap_cons, List.length_append,
      flatMap_replicate_length f c k, Nat.add_mul, Nat.one_mul, Nat.add_comm]

theorem readFile_selfloop (g : Globals) (disk : List Nat) (fileEntry : DirectoryEntry)
    (hfcl : fileEntry.FirstClusterLow = 2) (hloop : nextCluster g.global_Fat 2 = some 2)
    (hr : (readSectors g disk (clusterLba g 2) g.global_BootSector.SectorsPerCluster).1 = true)
    (fuel : Nat) :
    readFile g fileEntry disk fuel = .running
      { ok := true
        currentCluster := 2
        outputBuffer := (List.replicate fuel 2).flatMap (clusterBytes g disk)
        trace := (List.replicate fuel 2).flatMap (iterationEvents g) } ∧
    ((List.replicate fuel 2).flatMap (clusterBytes g disk)).length
      = fuel * (g.global_BootSector.BytesPerSector * g.global_BootSector.SectorsPerCluster) := by
  constructor
  · have h := readFileLoop_selfloop g disk 2 hloop (by decide) hr fuel
      { ok := true, currentCluster := 2, outputBuffer := [], trace := [] } rfl rfl
    unfold readFile
    rw [hfcl, h]
    simp
  · rw [flatMap_replicate_length, clusterBytes_length_of_ok hr]

theorem mainReadAndPrint_selfloop (g : Globals) (disk argv2 : List Nat) (i : Nat)
    (hfcl : (directoryEntryAt g.global_RootDirectory i).FirstClusterLow = 2)
    (hloop : nextCluster g.global_Fat 2 = some 2)
    (hr : (readSectors g disk (clusterLba g 2) g.global_BootSector.SectorsPerCluster).1 = true)
    (fuel : Nat) :
    mainReadAndPrint g disk argv2 i fuel =
      if bufferLength g (directoryEntryAt g.global_RootDirectory i)
          < fuel * (g.global_BootSector.BytesPerSector
            * g.global_BootSector.SectorsPerCluster)
      then .undefined .bufferOverflow else .running := by
  obtain ⟨hw, hl⟩ := readFile_selfloop g disk (directoryEntryAt g.global_RootDirectory i)
    hfcl hloop hr fuel
  simp only [mainReadAndPrint, hw, hl]

/-- C6 (as the code behaves): the walk has no iteration bound and no corrupt-chain
status.  When the FAT entry of cluster 2 decodes to 2 and the entry found has
`FirstClusterLow = 2`, then as long as the read of cluster 2 succeeds `readFile` does
not return: each iteration reads cluster 2 again and stores it `SectorsPerCluster *
BytesPerSector` bytes further on.  For every number `k` of iterations whose `k`
clusters fit into the `Size + BytesPerSector` bytes `main` allocated, the walk has
issued `k` successful reads and goes on; from the first iteration at which they do
not fit the run is undefined, a store past the end of the buffer.  `readFile`
returns, with failure, only if the read of cluster 2 fails, after that one read. -/
theorem C6_self_loop_runs_until_buffer_overrun (g : Globals) (disk argv2 : List Nat)
    (i : Nat)
    (hfcl : (directoryEntryAt g.global_RootDirectory i).FirstClusterLow = 2)
    (hloop : nextCluster g.global_Fat 2 = some 2) :
    ((readSectors g disk (clusterLba g 2) g.global_BootSector.SectorsPerCluster).1 = true →
      ∀ fuel,
        (fuel * (g.global_BootSector.BytesPerSector * g.global_BootSector.SectorsPerCluster)
            ≤ bufferLength g (directoryEntryAt g.global_RootDirectory i) →
          mainReadAndPrint g disk argv2 i fuel = .running ∧
          ∃ s, readFile g (directoryEntryAt g.global_RootDirectory i) disk fuel = .running s ∧
            s.ok = true ∧ s.currentCluster = 2 ∧
            sectorReads s.trace = List.replicate fuel
              (clusterLba g 2, g.global_BootSector.SectorsPerCluster, true) ∧
            s.outputBuffer.length = fuel * (g.global_BootSector.BytesPerSector
              * g.global_BootSector.SectorsPerCluster)) ∧
        (bufferLength g (directoryEntryAt g.global_RootDirectory i)
            < fuel * (g.global_BootSector.BytesPerSector
              * g.global_BootSector.SectorsPerCluster) →
          mainReadAndPrint g disk argv2 i fuel = .undefined .bufferOverflow)) ∧
    ((readSectors g disk (clusterLba g 2) g.global_BootSector.SectorsPerCluster).1 = false →
      ∀ fuel, 0 < fuel →
        ∃ s, readFile g (directoryEntryAt g.global_RootDirectory i) disk fuel = .returns s ∧
          s.ok = false ∧
          sectorReads s.trace =
            [(clusterLba g 2, g.global_BootSector.SectorsPerCluster, false)] ∧
          mainReadAndPrint g disk argv2 i fuel =
            if bufferLength g (directoryEntryAt g.global_RootDirectory i)
                < s.outputBuffer.length
            then .undefined .bufferOverflow
            else .returns { status := -5, stdout := [],
                            stderr := text "Could not read File " ++ argv2 ++ text "!\n" }) := by
  constructor
  · intro hr fuel
    obtain ⟨hw, hl⟩ := readFile_selfloop g disk (directoryEntryAt g.global_RootDirectory i)
      hfcl hloop hr fuel
    have hm := mainReadAndPrint_selfloop g disk argv2 i hfcl hloop hr fuel
    constructor
    · intro hfit
      refine ⟨by rw [hm, if_neg (by omega)], _, hw, rfl, rfl, ?_, hl⟩
      simp only []
      rw [sectorReads_iterations]
      simp
    · intro hover
      rw [hm, if_pos hover]
  · intro hr fuel hfuel
    obtain ⟨f, rfl⟩ : ∃ f, fuel = f + 1 := ⟨fuel - 1, by omega⟩
    have h := readFileLoop_read_fails g disk
      { ok := true, currentCluster := 2, outputBuffer := [], trace := [] } 2 f rfl hloop hr
    have hw : readFile g (directoryEntryAt g.global_RootDirectory i) disk (f + 1) = .returns
        { ok := false
          currentCluster := 2
          outputBuffer := [] ++ clusterBytes g disk 2
          trace := [] ++
            [Event.sectorRead (clusterLba g 2) g.global_BootSector.SectorsPerCluster false,
             Event.fatLoad 2] } := by
      unfold readFile
      rw [hfcl]
      exact h
    refine ⟨_, hw, rfl, by simp [sectorReads], ?_⟩
    simp [mainReadAndPrint, hw]

set_option maxRecDepth 8000 in
theorem C6_self_loop_runs_until_buffer_overrun_witness :
    nextCluster loopGlobals.global_Fat 2 = some 2 ∧
    (mainReadAndPrint loopGlobals loopImage (text "HELLO   TXT") 0 1 = .running ∧
      ∃ s, readFile loopGlobals (directoryEntryAt loopGlobals.global_RootDirectory 0)
          loopImage 1 = .running s ∧ s.ok = true ∧ s.currentCluster = 2 ∧
        sectorReads s.trace = List.replicate 1 (3, 1, true) ∧
        s.outputBuffer.length = 1 * (512 * 1)) ∧
    mainReadAndPrint loopGlobals loopImage (text "HELLO   TXT") 0 2
      = .undefined .bufferOverflow :=
  ⟨by decide,
   ((C6_self_loop_runs_until_buffer_overrun loopGlobals loopImage (text "HELLO   TXT") 0
      (by decide) (by decide)).1 (by decide) 1).1 (by decide),
   ((C6_self_loop_runs_until_buffer_overrun loopGlobals loopImage (text "HELLO   TXT") 0
      (by decide) (by decide)).1 (by decide) 2).2 (by decide)⟩

set_option maxRecDepth 8000 in
/-- C6 fails on the code: on the synthetic image whose FAT entry of cluster 2 is 2,
for the entry HELLO.TXT with first cluster 2 (5 bytes, so a buffer of 517 bytes),
after one iteration `readFile` has stored 512 bytes and is still in its loop, on
cluster 2 with its status set; the second iteration stores 512 more, 1024 in all, past
the end of the buffer, and from then on the run is undefined.  For no number of
iterations does the program return, so no failure is ever reported. -/
theorem C6_self_loop_never_returns :
    loadedGlobals loopImage = some loopGlobals ∧
    findFile loopGlobals (text "HELLO   TXT" ++ [0]) = .returns (some 0) ∧
    nextCluster loopGlobals.global_Fat 2 = some 2 ∧
    (directoryEntryAt loopGlobals.global_RootDirectory 0).FirstClusterLow = 2 ∧
    bufferLength loopGlobals (directoryEntryAt loopGlobals.global_RootDirectory 0) = 517 ∧
    (∃ s, readFile loopGlobals (directoryEntryAt loopGlobals.global_RootDirectory 0)
        loopImage 1 = .running s ∧ s.ok = true ∧ s.currentCluster = 2 ∧
      s.outputBuffer.length = 512) ∧
    (readFile loopGlobals (directoryEntryAt loopGlobals.global_RootDirectory 0)
      loopImage 2).state.outputBuffer.length = 1024 ∧
    mainOnDisk loopImage (text "HELLO   TXT") 1 = .running ∧
    (∀ fuel, 2 ≤ fuel →
      mainOnDisk loopImage (text "HELLO   TXT") fuel = .undefined .bufferOverflow) ∧
    (∀ fuel r, mainOnDisk loopImage (text "HELLO   TXT") fuel ≠ .returns r) := by
  have hwalk := readFile_selfloop loopGlobals loopImage
    (directoryEntryAt loopGlobals.global_RootDirectory 0) (by decide) (by decide) (by decide)
  have hmain : ∀ fuel, mainOnDisk loopImage (text "HELLO   TXT") fuel =
      if 517 < fuel * 512 then .undefined .bufferOverflow else .running := by
    intro fuel
    rw [mainOnDisk_of_loadedGlobals loopImage (text "HELLO   TXT") fuel 0 loopGlobals
      loopImage_loaded loopImage_found,
      mainReadAndPrint_selfloop loopGlobals loopImage (text "HELLO   TXT") 0 (by decide)
        (by decide) (by decide) fuel]
    rfl
  refine ⟨loopImage_loaded, loopImage_found, by decide, by decide, by decide, ?_, ?_, ?_, ?_,
    ?_⟩
  · exact ⟨_, (hwalk 1).1, rfl, rfl, (hwalk 1).2⟩
  · rw [(hwalk 2).1]
    exact (hwalk 2).2
  · rw [hmain]
    decide
  · intro fuel hfuel
    rw [hmain, if_pos (by omega)]
  · intro fuel r h
    rw [hmain] at h
    split at h <;> cases h

end Fat12
